import Mathlib

/- Shallow embedding of the emu-runner crate (src/includes.rs, src/lib.rs,
   src/contexts/bizhawk.rs, src/contexts/fceux.rs, src/contexts/gens.rs).
   Filesystem state is explicit: a `World` maps resolved paths to byte
   contents.  The SHA-1 digest is an external collaborator and is modelled
   as an abstract function from byte sequences to (lowercase hex) strings,
   compared for equality exactly where the source compares digests.
   All `cfg(target_family = "unix")` branches are the ones embedded, as
   every platform-sensitive claim concerns the non-Windows build. -/

set_option maxHeartbeats 1000000

namespace EmuRunner

/-- A UTF-8 path (camino `Utf8PathBuf`), modelled as an absoluteness flag plus
the list of path components. `push` always receives a single component in the
source, so components never need further splitting. -/
structure Path where
  absolute : Bool
  components : List String
deriving DecidableEq

/-- `Utf8PathBuf::push` with a single-component name. -/
def Path.push (p : Path) (s : String) : Path :=
  ⟨p.absolute, p.components ++ [s]⟩

/-- `Utf8Path::file_name`: the last component, if any. -/
def Path.fileName (p : Path) : Option String :=
  p.components.getLast?

/-- `Utf8Path::is_absolute`. -/
def Path.isAbsolute (p : Path) : Bool :=
  p.absolute

/-- Rendering used when a path is spliced into an argument string. -/
def Path.toStr (p : Path) : String :=
  (if p.absolute then "/" else "") ++ String.intercalate "/" p.components

/-- Association-list lookup of a file by (already resolved) path. -/
def lookupFile : List (Path × List Nat) → Path → Option (List Nat)
  | [], _ => none
  | (q, d) :: rest, p => if p = q then some d else lookupFile rest p

/-- The filesystem world: regular files with contents, directories, and the
current working directory of the host process (relative paths passed to the
OS resolve against it). -/
structure World where
  files : List (Path × List Nat)
  dirs : List Path
  cwd : Path
deriving DecidableEq

/-- OS-level resolution of a possibly relative path against the process cwd. -/
def World.resolve (w : World) (p : Path) : Path :=
  if p.absolute then p else ⟨w.cwd.absolute, w.cwd.components ++ p.components⟩

/-- `std::fs::read`: the file's bytes, if the path names a regular file. -/
def World.readFile (w : World) (p : Path) : Option (List Nat) :=
  lookupFile w.files (w.resolve p)

/-- `Utf8Path::is_file`. -/
def World.isFile (w : World) (p : Path) : Bool :=
  (w.readFile p).isSome

/-- `Utf8Path::is_dir`. -/
def World.isDir (w : World) (p : Path) : Bool :=
  decide (w.resolve p ∈ w.dirs)

/-- `std::fs::write` (create-or-truncate). -/
def World.writeFile (w : World) (p : Path) (data : List Nat) : World :=
  { w with files := (w.resolve p, data) :: w.files }

/-- `std::fs::create_dir_all`. -/
def World.createDirAll (w : World) (p : Path) : World :=
  { w with dirs := w.resolve p :: w.dirs }

/-- The abstract SHA-1 collaborator: byte sequence to lowercase hex digest.
Digest equality in the source corresponds to equality of hex strings. -/
def HashFn : Type := List Nat → String

/-- `copy_if_different` from src/includes.rs: if the destination is a regular
file whose content has the same digest as `data`, do nothing; otherwise write
`data` to the destination.  Returns the new world together with the list of
write events (resolved destination, bytes written). -/
def copy_if_different (h : HashFn) (data : List Nat) (dest : Path) (w : World) :
    World × List (Path × List Nat) :=
  match w.readFile dest with
  | some old =>
    if h data = h old then (w, [])
    else (w.writeFile dest data, [(w.resolve dest, data)])
  | none => (w.writeFile dest data, [(w.resolve dest, data)])

/-- The crate's `Error` enum (src/lib.rs).  The `StdIo` wrapper carries no
payload in the model since modelled I/O primitives fail only where the
algorithm checks for the condition first. -/
inductive Error where
  | StdIoError
  | MissingExecutable (p : Path)
  | MissingBash (p : Path)
  | MissingConfig (p : Path)
  | MissingRom (p : Path)
  | MissingMovie (p : Path)
  | MissingLua (p : Path)
  | IncompatibleOSVersion
  | AbsolutePathFailed
deriving DecidableEq

instance instDecEqExcept {ε α : Type} [DecidableEq ε] [DecidableEq α] :
    DecidableEq (Except ε α) := fun a b =>
  match a, b with
  | .error x, .error y =>
    if h : x = y then isTrue (by rw [h]) else isFalse (fun hc => by cases hc; exact h rfl)
  | .ok x, .ok y =>
    if h : x = y then isTrue (by rw [h]) else isFalse (fun hc => by cases hc; exact h rfl)
  | .error _, .ok _ => isFalse (fun hc => by cases hc)
  | .ok _, .error _ => isFalse (fun hc => by cases hc)

/-- The shared validation step for an optional path field in the BizHawk and
FCEUX `prepare` implementations: absent fields pass; a present field must be
a regular file (else the field-specific Missing error) and absolute (else
`AbsolutePathFailed`). -/
def checkField (w : World) (field : Option Path) (mkErr : Path → Error) : Option Error :=
  match field with
  | none => none
  | some p =>
    if w.isFile p then
      (if p.isAbsolute then none else some Error.AbsolutePathFailed)
    else some (mkErr p)

/-- `BizHawkContext` (src/contexts/bizhawk.rs). -/
structure BizHawkContext where
  config : Option Path
  movie : Option Path
  lua : Option Path
  rom : Option Path
  working_dir : Path
deriving DecidableEq

instance instDecEqBizResult :
    DecidableEq (Except Error (BizHawkContext × World × List (Path × List Nat))) :=
  @instDecEqExcept _ _ inferInstance inferInstance

/-- The fixed SHA-1-to-version fingerprint table matched, in order, inside
`BizHawkContext::detect_version`. -/
def bizhawkVersionTable : List (String × String) :=
  [ ("ef7c4067cec01b60b89ff8c271f3c72a0b2d009f", "2.9.1"),
    ("c9be7f8e4a05122e60545e8988920b710bd50ea7", "2.9"),
    ("31a2fadd049957377358a0b7b1267f3d8ecebfd9", "2.9-rc3"),
    ("a6ff6e02a05a0ec52695a7ec757aedcdc16e0192", "2.9-rc2"),
    ("288e310c430cbcbc0881913efd82e91f16dc14dd", "2.9-rc1"),
    ("88e476295d004a80ea514847c0d590879e7b3d88", "2.8"),
    ("9d2738265a37e28813eeff08e41def697f58cbee", "2.8-rc1"),
    ("eac6aa28589372d120e23e5b2f69b56c2542273b", "2.7"),
    ("3261214b9991918c5224d27b6cf7d84f9acd3566", "1.9.2"),
    ("202a0d945cd20a1b2e5021d3499ac7b5c2f5ca46", "1.6.1"),
    ("7dd9dce90e16138ca38ef92cdb1270a378d21dad", "2.6.3"),
    ("3668613ed1fc61f1dafde9b678e6a637da23d882", "2.6.2"),
    ("115cb73156b4a288378fd00aa0fd982fb0c311c5", "2.6.1"),
    ("307526d8171fa9aa2dfbf735aa1eca23425b829a", "2.6"),
    ("7bcc6337005dba33fbc8a454cf7f669563f39e85", "2.5.2"),
    ("410c423feef9666955b2a0d66c3b64c3e432988a", "2.5.1"),
    ("d45a7348a8e5505b294df9add852787d04b569e4", "2.5.0"),
    ("6e169792aebef5942c9fabd276c7d3e07e2c3196", "2.4.2"),
    ("71d9bd1ae6d60b6fc7d3aebe474eae50995c29d7", "2.4.1"),
    ("2668ef81bad2459a9a14a09a3a8d5ee2c6e9cbac", "2.4"),
    ("1fbf1b672ddb4e98aef77a8edd5655149b4b4c72", "2.3.3"),
    ("d9365fd6f1f979a52689979e5709b26dfef7dc09", "2.3.2"),
    ("c2f4b95b86a11c472f7e8522598be644e9e05c6d", "2.3.1"),
    ("b2072e0bdf4944d060c83f44df17e88da4007c81", "2.3"),
    ("ab83cfd3ed5b9dc392d2b0d4aa1b99723c5bf4c9", "1.13.2"),
    ("4c1599c7ed7e5216477454ac7fac0719f2ee6e66", "2.2.2"),
    ("6095cb07bd79703527c01ad4f27ed4e907d2f030", "2.2.1"),
    ("4e2ec35bff8798494d3cc0e22276f2456939257d", "2.2"),
    ("fc372a78d03ca5229f3c125a9dff91a779a66b7a", "2.1.1"),
    ("c2e31867428e03ba2ef23911d605163a7008d6a5", "2.1.0") ]

/-- Sequential first-match lookup, mirroring a match on string literals. -/
def lookupVersion : List (String × String) → String → Option String
  | [], _ => none
  | (k, v) :: rest, s => if s = k then some v else lookupVersion rest s

/-- `str::to_lowercase` as applied to a hex digest string: character-wise
ASCII lowering (digests contain only ASCII characters). -/
def strToLower (s : String) : String :=
  ⟨s.data.map Char.toLower⟩

/-- `BizHawkContext::detect_version`: hash the bytes of `EmuHawk.exe` in the
working directory, lowercase the hex rendering and match against the
fingerprint table.  The source calls `std::fs::read(exe).unwrap()`, so a
missing executable is a panic, modelled as the outer `none`; the inner
option is the function's own result (`none` = unknown hash). -/
def BizHawkContext.detect_version (h : HashFn) (w : World) (self : BizHawkContext) :
    Option (Option String) :=
  match w.readFile (self.working_dir.push "EmuHawk.exe") with
  | none => none
  | some bytes => some (lookupVersion bizhawkVersionTable (strToLower (h bytes)))

/-- The version labels that select the pre-2.90 bootstrap payload in
`BizHawkContext::prepare`. -/
def bizhawkLegacySet : List String :=
  ["2.8", "2.8-rc1", "2.7", "2.6.3", "2.6.2", "2.6.1", "2.6"]

/-- The version labels rejected with `IncompatibleOSVersion` in
`BizHawkContext::prepare`. -/
def bizhawkUnsupportedSet : List String :=
  [ "2.5.2", "2.5.1", "2.5.0", "2.4.2", "2.4.1", "2.4", "2.3.3",
    "2.3.2", "2.3.1", "2.3", "2.2.2", "2.2.1", "2.2", "2.1.1",
    "2.1.0", "1.13.2", "1.9.2", "1.6.1" ]

/-- `BizHawkContext::prepare` on unix.  The two bootstrap payloads are opaque
byte blobs embedded at build time (their script files are not part of the
sources), so they enter as parameters `bashDefault` and `bashPre290`.
Result: `none` for a panic, otherwise the error or the updated context,
world and write log. -/
def BizHawkContext.prepare (h : HashFn) (bashDefault bashPre290 : List Nat)
    (w : World) (self : BizHawkContext) :
    Option (Except Error (BizHawkContext × World × List (Path × List Nat))) :=
  match checkField w self.config Error.MissingConfig with
  | some e => some (Except.error e)
  | none =>
  match checkField w self.movie Error.MissingMovie with
  | some e => some (Except.error e)
  | none =>
  match checkField w self.lua Error.MissingLua with
  | some e => some (Except.error e)
  | none =>
  match checkField w self.rom Error.MissingRom with
  | some e => some (Except.error e)
  | none =>
  match self.detect_version h w with
  | none => none
  | some verOpt =>
    match verOpt with
    | some ver =>
      if ver ∈ bizhawkLegacySet then
        let r := copy_if_different h bashPre290 (self.working_dir.push "start-bizhawk.sh") w
        some (Except.ok (self, r.1, r.2))
      else if ver ∈ bizhawkUnsupportedSet then
        some (Except.error Error.IncompatibleOSVersion)
      else
        let r := copy_if_different h bashDefault (self.working_dir.push "start-bizhawk.sh") w
        some (Except.ok (self, r.1, r.2))
    | none =>
      let r := copy_if_different h bashDefault (self.working_dir.push "start-bizhawk.sh") w
      some (Except.ok (self, r.1, r.2))

/-- `BizHawkContext::cmd_name` on unix. -/
def BizHawkContext.cmd_name (_ : BizHawkContext) : String := "bash"

/-- `BizHawkContext::args` on unix. -/
def BizHawkContext.args (self : BizHawkContext) : List String :=
  ["start-bizhawk.sh"]
    ++ (match self.config with | some c => ["--config=" ++ c.toStr] | none => [])
    ++ (match self.movie with | some m => ["--movie=" ++ m.toStr] | none => [])
    ++ (match self.lua with | some l => ["--lua=" ++ l.toStr] | none => [])
    ++ (match self.rom with | some r => [r.toStr] | none => [])

/-- `BizHawkContext::env`. -/
def BizHawkContext.envVars (_ : BizHawkContext) : List (String × String) := []

/-- The process invocation assembled by `command` in src/lib.rs. -/
structure Cmd where
  name : String
  cmdArgs : List String
  cmdEnv : List (String × String)
  cwd : Path
deriving DecidableEq

instance instDecEqCmdResult :
    DecidableEq (Except Error (Cmd × World × List (Path × List Nat))) :=
  @instDecEqExcept _ _ inferInstance inferInstance

/-- `command` (src/lib.rs) applied to a BizHawk context. -/
def bizhawkCommand (self : BizHawkContext) : Cmd :=
  ⟨self.cmd_name, self.args, self.envVars, self.working_dir⟩

/-- `run` (src/lib.rs) applied to a BizHawk context: `prepare`, then assemble
the command and spawn it.  The spawned output is external, so a successful
run is modelled as the command that would be spawned plus the prepared
world and write log. -/
def bizhawkRun (h : HashFn) (bashDefault bashPre290 : List Nat)
    (w : World) (self : BizHawkContext) :
    Option (Except Error (Cmd × World × List (Path × List Nat))) :=
  match self.prepare h bashDefault bashPre290 w with
  | none => none
  | some (Except.error e) => some (Except.error e)
  | some (Except.ok (ctx, w', log)) => some (Except.ok (bizhawkCommand ctx, w', log))

/-- BizHawk builder `with_config`: opportunistic canonicalization.  The
canonicalizer is the external collaborator `canon` (failure = `none`). -/
def BizHawkContext.with_config (canon : Path → Option Path) (p : Path)
    (self : BizHawkContext) : BizHawkContext :=
  { self with config := some ((canon p).getD p) }

/-- BizHawk builder `with_movie`. -/
def BizHawkContext.with_movie (canon : Path → Option Path) (p : Path)
    (self : BizHawkContext) : BizHawkContext :=
  { self with movie := some ((canon p).getD p) }

/-- BizHawk builder `with_lua`. -/
def BizHawkContext.with_lua (canon : Path → Option Path) (p : Path)
    (self : BizHawkContext) : BizHawkContext :=
  { self with lua := some ((canon p).getD p) }

/-- BizHawk builder `with_rom`. -/
def BizHawkContext.with_rom (canon : Path → Option Path) (p : Path)
    (self : BizHawkContext) : BizHawkContext :=
  { self with rom := some ((canon p).getD p) }

/-- `FceuxContext` (src/contexts/fceux.rs). -/
structure FceuxContext where
  config : Option Path
  movie : Option Path
  lua : Option Path
  rom : Option Path
  working_dir : Path
deriving DecidableEq

instance instDecEqFceuxCfgResult :
    DecidableEq (Except Error (World × List (Path × List Nat))) :=
  @instDecEqExcept _ _ inferInstance inferInstance

instance instDecEqFceuxResult :
    DecidableEq (Except Error (FceuxContext × World × List (Path × List Nat))) :=
  @instDecEqExcept _ _ inferInstance inferInstance

/-- `FceuxContext::determine_executable`: probe the working directory for the
four candidate filenames in the fixed order and return the first found. -/
def FceuxContext.determine_executable (w : World) (self : FceuxContext) : Option String :=
  if w.isFile (self.working_dir.push "fceux") then some "fceux"
  else if w.isFile (self.working_dir.push "fceux.exe") then some "fceux.exe"
  else if w.isFile (self.working_dir.push "fceux64.exe") then some "fceux64.exe"
  else if w.isFile (self.working_dir.push "qfceux.exe") then some "qfceux.exe"
  else none

/-- `FceuxContext::cmd_name` on unix. -/
def FceuxContext.cmd_name (w : World) (self : FceuxContext) : String :=
  match self.determine_executable w with
  | some exe => if exe = "fceux" then "./fceux" else "wine"
  | none => "./fceux"

/-- `FceuxContext::args` on unix: a wine invocation first names the detected
Windows executable; the flag vocabulary depends on the detected candidate;
the rom path, when present, comes last.  (The source unwraps the executable
option inside the wine branch; `cmd_name` returns "wine" only when an
executable was found, so the unwrap cannot panic.) -/
def FceuxContext.args (w : World) (self : FceuxContext) : List String :=
  (if self.cmd_name w = "wine" then
      match self.determine_executable w with
      | some exe => [exe]
      | none => []
    else [])
  ++ (match self.determine_executable w with
      | some exe =>
        if exe = "fceux.exe" ∨ exe = "fceux64.exe" then
          (match self.config with | some c => ["-cfg", c.toStr] | none => [])
            ++ (match self.movie with | some m => ["-playmovie", m.toStr] | none => [])
            ++ (match self.lua with | some l => ["-lua", l.toStr] | none => [])
        else if exe = "fceux" ∨ exe = "qfceux.exe" then
          (match self.movie with | some m => ["--playmov", m.toStr] | none => [])
            ++ (match self.lua with | some l => ["--loadlua", l.toStr] | none => [])
        else []
      | none => [])
  ++ (match self.rom with | some r => [r.toStr] | none => [])

/-- The config block of `FceuxContext::prepare`: a present config must be a
regular file; then, depending on the detected executable, it is staged under
`.fceux/fceux.cfg` (native "fceux", creating the directory if needed) or
`fceux.cfg` ("qfceux.exe"), or (other executables) must be absolute; when no
executable is detected the config is left alone.  The source repeats the
`is_file` test inside a redundant inner `if let` on the same field; the
second test cannot differ from the first.  The single component ".fceux"
stands for the source's ".fceux/" (camino drops the trailing separator on
the later push). -/
def FceuxContext.configStep (h : HashFn) (w : World) (self : FceuxContext) :
    Except Error (World × List (Path × List Nat)) :=
  match self.config with
  | none => Except.ok (w, [])
  | some config =>
    if w.isFile config then
      match self.determine_executable w with
      | some exe =>
        if exe = "fceux" then
          let destDir := self.working_dir.push ".fceux"
          let w1 := if w.isDir destDir then w else w.createDirAll destDir
          match w1.readFile config with
          | some data =>
            let r := copy_if_different h data (destDir.push "fceux.cfg") w1
            Except.ok (r.1, r.2)
          | none => Except.error Error.StdIoError
        else if exe = "qfceux.exe" then
          match w.readFile config with
          | some data =>
            let r := copy_if_different h data (self.working_dir.push "fceux.cfg") w
            Except.ok (r.1, r.2)
          | none => Except.error Error.StdIoError
        else if config.isAbsolute then Except.ok (w, [])
        else Except.error Error.AbsolutePathFailed
      | none => Except.ok (w, [])
    else Except.error (Error.MissingConfig config)

/-- `FceuxContext::prepare` on unix: the config block, then the uniform
existing-file-and-absolute checks for movie, lua and rom. -/
def FceuxContext.prepare (h : HashFn) (w : World) (self : FceuxContext) :
    Except Error (FceuxContext × World × List (Path × List Nat)) :=
  match self.configStep h w with
  | Except.error e => Except.error e
  | Except.ok (w1, log) =>
  match checkField w1 self.movie Error.MissingMovie with
  | some e => Except.error e
  | none =>
  match checkField w1 self.lua Error.MissingLua with
  | some e => Except.error e
  | none =>
  match checkField w1 self.rom Error.MissingRom with
  | some e => Except.error e
  | none => Except.ok (self, w1, log)

/-- FCEUX builder `with_config`. -/
def FceuxContext.with_config (canon : Path → Option Path) (p : Path)
    (self : FceuxContext) : FceuxContext :=
  { self with config := some ((canon p).getD p) }

/-- FCEUX builder `with_movie`. -/
def FceuxContext.with_movie (canon : Path → Option Path) (p : Path)
    (self : FceuxContext) : FceuxContext :=
  { self with movie := some ((canon p).getD p) }

/-- FCEUX builder `with_lua`. -/
def FceuxContext.with_lua (canon : Path → Option Path) (p : Path)
    (self : FceuxContext) : FceuxContext :=
  { self with lua := some ((canon p).getD p) }

/-- FCEUX builder `with_rom`. -/
def FceuxContext.with_rom (canon : Path → Option Path) (p : Path)
    (self : FceuxContext) : FceuxContext :=
  { self with rom := some ((canon p).getD p) }

/-- `GensVersion` (src/contexts/gens.rs). -/
inductive GensVersion where
  | Ver11A
  | Ver11B
  | GitA2425B5
deriving DecidableEq

/-- `GensContext` (src/contexts/gens.rs). -/
structure GensContext where
  version : GensVersion
  start_paused : Bool
  rom : Option Path
  movie : Option Path
  lua : Option Path
  working_dir : Path
deriving DecidableEq

instance instDecEqGensResult :
    DecidableEq (Except Error (GensContext × World × List (Path × List Nat))) :=
  @instDecEqExcept _ _ inferInstance inferInstance

/-- Sequencing for steps that may panic (`none`) or error. -/
def pstep {α β : Type} (x : Option (Except Error α)) (f : α → Option (Except Error β)) :
    Option (Except Error β) :=
  match x with
  | none => none
  | some (Except.error e) => some (Except.error e)
  | some (Except.ok a) => f a

/-- The rom block of `GensContext::prepare`: the rom must be a regular file;
its bytes are copied (copy-on-difference) into the working directory under
its file name, and the stored field is rewritten to just that file name.
`file_name().unwrap()` panics (`none`) when the path has no final component. -/
def gensStageRom (h : HashFn) (st : GensContext × World × List (Path × List Nat)) :
    Option (Except Error (GensContext × World × List (Path × List Nat))) :=
  let (self, w, log) := st
  match self.rom with
  | none => some (Except.ok (self, w, log))
  | some rom =>
    if w.isFile rom then
      match rom.fileName with
      | none => none
      | some name =>
        match w.readFile rom with
        | some data =>
          let r := copy_if_different h data (self.working_dir.push name) w
          some (Except.ok ({ self with rom := some ⟨false, [name]⟩ }, r.1, log ++ r.2))
        | none => some (Except.error Error.StdIoError)
    else some (Except.error (Error.MissingRom rom))

/-- The movie block of `GensContext::prepare`: the movie must be a regular
file; when its path is not absolute it is copied into the working directory
and the stored field rewritten to the file name; an absolute path is kept
as-is. -/
def gensStageMovie (h : HashFn) (st : GensContext × World × List (Path × List Nat)) :
    Option (Except Error (GensContext × World × List (Path × List Nat))) :=
  let (self, w, log) := st
  match self.movie with
  | none => some (Except.ok (self, w, log))
  | some movie =>
    if w.isFile movie then
      if movie.isAbsolute then some (Except.ok (self, w, log))
      else
        match movie.fileName with
        | none => none
        | some name =>
          match w.readFile movie with
          | some data =>
            let r := copy_if_different h data (self.working_dir.push name) w
            some (Except.ok ({ self with movie := some ⟨false, [name]⟩ }, r.1, log ++ r.2))
          | none => some (Except.error Error.StdIoError)
    else some (Except.error (Error.MissingMovie movie))

/-- The lua block of `GensContext::prepare`, identical in shape to the movie
block. -/
def gensStageLua (h : HashFn) (st : GensContext × World × List (Path × List Nat)) :
    Option (Except Error (GensContext × World × List (Path × List Nat))) :=
  let (self, w, log) := st
  match self.lua with
  | none => some (Except.ok (self, w, log))
  | some lua =>
    if w.isFile lua then
      if lua.isAbsolute then some (Except.ok (self, w, log))
      else
        match lua.fileName with
        | none => none
        | some name =>
          match w.readFile lua with
          | some data =>
            let r := copy_if_different h data (self.working_dir.push name) w
            some (Except.ok ({ self with lua := some ⟨false, [name]⟩ }, r.1, log ++ r.2))
          | none => some (Except.error Error.StdIoError)
    else some (Except.error (Error.MissingLua lua))

/-- `GensContext::prepare`: rom, movie and lua blocks in order. -/
def GensContext.prepare (h : HashFn) (w : World) (self : GensContext) :
    Option (Except Error (GensContext × World × List (Path × List Nat))) :=
  pstep (gensStageRom h (self, w, [])) fun st1 =>
  pstep (gensStageMovie h st1) fun st2 =>
  gensStageLua h st2

/-- Gens builder `with_rom`: stores the path as given (no canonicalization
in the source). -/
def GensContext.with_rom (p : Path) (self : GensContext) : GensContext :=
  { self with rom := some p }

/-- Gens builder `with_movie`: stores the path as given. -/
def GensContext.with_movie (p : Path) (self : GensContext) : GensContext :=
  { self with movie := some p }

/-- Gens builder `with_lua`: stores the path as given. -/
def GensContext.with_lua (p : Path) (self : GensContext) : GensContext :=
  { self with lua := some p }

/- Helper lemmas about the world model. -/

theorem World.resolve_writeFile (w : World) (p : Path) (d : List Nat) (q : Path) :
    (w.writeFile p d).resolve q = w.resolve q := rfl

theorem World.cwd_writeFile (w : World) (p : Path) (d : List Nat) :
    (w.writeFile p d).cwd = w.cwd := rfl

theorem World.readFile_writeFile_self (w : World) (p : Path) (d : List Nat) :
    (w.writeFile p d).readFile p = some d := by
  unfold World.readFile World.writeFile lookupFile
  simp [World.resolve]

theorem World.readFile_writeFile_ne (w : World) (p : Path) (d : List Nat) (q : Path)
    (hq : w.resolve q ≠ w.resolve p) :
    (w.writeFile p d).readFile q = w.readFile q := by
  have h1 : (w.writeFile p d).readFile q
      = lookupFile ((w.resolve p, d) :: w.files) (w.resolve q) := rfl
  rw [h1, lookupFile, if_neg hq]
  rfl

theorem World.isFile_writeFile_mono (w : World) (p : Path) (d : List Nat) (q : Path)
    (hq : w.isFile q = true) : (w.writeFile p d).isFile q = true := by
  by_cases hr : w.resolve q = w.resolve p
  · have h1 : (w.writeFile p d).readFile q
        = lookupFile ((w.resolve p, d) :: w.files) (w.resolve q) := rfl
    unfold World.isFile
    rw [h1, lookupFile, if_pos hr]
    rfl
  · unfold World.isFile
    rw [World.readFile_writeFile_ne w p d q hr]
    exact hq

theorem World.readFile_none_of_isFile_false (w : World) (p : Path)
    (hp : w.isFile p = false) : w.readFile p = none := by
  unfold World.isFile at hp
  cases hr : w.readFile p with
  | none => rfl
  | some d => rw [hr] at hp; simp at hp

theorem World.isFile_true_iff (w : World) (p : Path) :
    w.isFile p = true ↔ ∃ d, w.readFile p = some d := by
  unfold World.isFile
  cases hr : w.readFile p <;> simp

/-- C1: for an existing destination file, `copy_if_different` leaves the
world untouched (no write) exactly when the digest of the new data equals the
digest of the current content, and otherwise performs exactly the one write
of `data` to the destination. -/
theorem c1_copy_if_different_hash_gated (h : HashFn) (data : List Nat) (dest : Path)
    (w : World) (old : List Nat) (hold : w.readFile dest = some old) :
    (h data = h old → copy_if_different h data dest w = (w, [])) ∧
    (h data ≠ h old →
      copy_if_different h data dest w = (w.writeFile dest data, [(w.resolve dest, data)])) := by
  unfold copy_if_different
  rw [hold]
  constructor
  · intro he; simp [he]
  · intro hne; simp [hne]

theorem c1_copy_if_different_hash_gated_witness :
    copy_if_different (fun l => if 1 ∈ l then "x" else "y") [1] ⟨true, ["d"]⟩
        ⟨[(⟨true, ["d"]⟩, [3, 1])], [], ⟨true, []⟩⟩
      = (⟨[(⟨true, ["d"]⟩, [3, 1])], [], ⟨true, []⟩⟩, []) ∧
    copy_if_different (fun l => if 1 ∈ l then "x" else "y") [2] ⟨true, ["d"]⟩
        ⟨[(⟨true, ["d"]⟩, [3, 1])], [], ⟨true, []⟩⟩
      = (⟨[(⟨true, ["d"]⟩, [2]), (⟨true, ["d"]⟩, [3, 1])], [], ⟨true, []⟩⟩,
          [(⟨true, ["d"]⟩, [2])]) :=
  ⟨(c1_copy_if_different_hash_gated (fun l => if 1 ∈ l then "x" else "y") [1] ⟨true, ["d"]⟩
      ⟨[(⟨true, ["d"]⟩, [3, 1])], [], ⟨true, []⟩⟩ [3, 1] (by decide)).1 (by decide),
   (c1_copy_if_different_hash_gated (fun l => if 1 ∈ l then "x" else "y") [2] ⟨true, ["d"]⟩
      ⟨[(⟨true, ["d"]⟩, [3, 1])], [], ⟨true, []⟩⟩ [3, 1] (by decide)).2 (by decide)⟩

/-- C10: when the destination is not an existing regular file,
`copy_if_different` writes `data` unconditionally (create-or-truncate), the
destination afterwards holds exactly `data`, and the digest function is never
consulted (the result is the same for every digest function). -/
theorem c10_copy_if_different_missing_dest (h h2 : HashFn) (data : List Nat) (dest : Path)
    (w : World) (hmiss : w.isFile dest = false) :
    copy_if_different h data dest w = (w.writeFile dest data, [(w.resolve dest, data)]) ∧
    (copy_if_different h data dest w).1.readFile dest = some data ∧
    copy_if_different h data dest w = copy_if_different h2 data dest w := by
  have hnone : w.readFile dest = none := World.readFile_none_of_isFile_false w dest hmiss
  unfold copy_if_different
  rw [hnone]
  refine ⟨rfl, ?_, rfl⟩
  exact World.readFile_writeFile_self w dest data

theorem c10_copy_if_different_missing_dest_witness :
    copy_if_different (fun _ => "x") [5] ⟨true, ["d"]⟩ ⟨[], [], ⟨true, []⟩⟩
      = (⟨[(⟨true, ["d"]⟩, [5])], [], ⟨true, []⟩⟩, [(⟨true, ["d"]⟩, [5])]) ∧
    (copy_if_different (fun _ => "x") [5] ⟨true, ["d"]⟩ ⟨[], [], ⟨true, []⟩⟩).1.readFile
        ⟨true, ["d"]⟩ = some [5] ∧
    copy_if_different (fun _ => "x") [5] ⟨true, ["d"]⟩ ⟨[], [], ⟨true, []⟩⟩
      = copy_if_different (fun _ => "zz") [5] ⟨true, ["d"]⟩ ⟨[], [], ⟨true, []⟩⟩ :=
  c10_copy_if_different_missing_dest (fun _ => "x") (fun _ => "zz") [5] ⟨true, ["d"]⟩
    ⟨[], [], ⟨true, []⟩⟩ (by decide)

/- Lemmas about sequential table lookup. -/

theorem lookupVersion_mem : ∀ (l : List (String × String)) (k v : String),
    (l.map Prod.fst).Nodup → (k, v) ∈ l → lookupVersion l k = some v
  | [], _, _, _, hm => by cases hm
  | (k', v') :: rest, k, v, hnd, hm => by
    rw [List.map_cons] at hnd
    have hnd' : k' ∉ rest.map Prod.fst ∧ (rest.map Prod.fst).Nodup :=
      ⟨(List.nodup_cons.mp hnd).1, (List.nodup_cons.mp hnd).2⟩
    rcases List.mem_cons.mp hm with heq | htl
    · rw [lookupVersion]
      cases heq
      simp
    · have hk : k ≠ k' := by
        intro hkk
        subst hkk
        exact hnd'.1 (List.mem_map.mpr ⟨(k, v), htl, rfl⟩)
      rw [lookupVersion, if_neg hk]
      exact lookupVersion_mem rest k v hnd'.2 htl

theorem lookupVersion_not_mem : ∀ (l : List (String × String)) (k : String),
    k ∉ l.map Prod.fst → lookupVersion l k = none
  | [], _, _ => rfl
  | (k', v') :: rest, k, hnot => by
    have hk : k ≠ k' := by
      intro hkk
      exact hnot (by simp [hkk])
    rw [lookupVersion, if_neg hk]
    exact lookupVersion_not_mem rest k (by intro hmem; exact hnot (by simp [hmem]))

theorem bizhawkTableKeysNodup : (bizhawkVersionTable.map Prod.fst).Nodup := by decide

/-- C2: when the `EmuHawk.exe` in the working directory has byte content
whose (lowercased) SHA-1 hex digest equals the key of an entry of the fixed
fingerprint table, `detect_version` returns exactly that entry's version
label; when the digest matches no table key, it returns the unknown result
(`none`). -/
theorem c2_detect_version_table (h : HashFn) (w : World) (self : BizHawkContext)
    (bytes : List Nat)
    (hread : w.readFile (self.working_dir.push "EmuHawk.exe") = some bytes) :
    (∀ kv ∈ bizhawkVersionTable, strToLower (h bytes) = kv.1 →
        self.detect_version h w = some (some kv.2)) ∧
    (strToLower (h bytes) ∉ bizhawkVersionTable.map Prod.fst →
        self.detect_version h w = some none) := by
  have hdet : self.detect_version h w
      = some (lookupVersion bizhawkVersionTable (strToLower (h bytes))) := by
    unfold BizHawkContext.detect_version
    rw [hread]
  constructor
  · rintro ⟨k, v⟩ hmem hkey
    rw [hdet, hkey]
    rw [lookupVersion_mem bizhawkVersionTable k v bizhawkTableKeysNodup hmem]
  · intro hnot
    rw [hdet, lookupVersion_not_mem bizhawkVersionTable _ hnot]

theorem c2_detect_version_table_witness :
    BizHawkContext.detect_version (fun _ => "c9be7f8e4a05122e60545e8988920b710bd50ea7")
        ⟨[(⟨true, ["b", "EmuHawk.exe"]⟩, [0])], [], ⟨true, []⟩⟩
        ⟨none, none, none, none, ⟨true, ["b"]⟩⟩ = some (some "2.9") ∧
    BizHawkContext.detect_version (fun _ => "zz")
        ⟨[(⟨true, ["b", "EmuHawk.exe"]⟩, [0])], [], ⟨true, []⟩⟩
        ⟨none, none, none, none, ⟨true, ["b"]⟩⟩ = some none :=
  ⟨(c2_detect_version_table (fun _ => "c9be7f8e4a05122e60545e8988920b710bd50ea7")
      ⟨[(⟨true, ["b", "EmuHawk.exe"]⟩, [0])], [], ⟨true, []⟩⟩
      ⟨none, none, none, none, ⟨true, ["b"]⟩⟩ [0] (by decide)).1
      ("c9be7f8e4a05122e60545e8988920b710bd50ea7", "2.9") (by decide) (by decide),
   (c2_detect_version_table (fun _ => "zz")
      ⟨[(⟨true, ["b", "EmuHawk.exe"]⟩, [0])], [], ⟨true, []⟩⟩
      ⟨none, none, none, none, ⟨true, ["b"]⟩⟩ [0] (by decide)).2 (by decide)⟩

/- BizHawk prepare reduction lemmas shared by several claims. -/

theorem bizhawkUnsupported_not_legacy :
    ∀ v ∈ bizhawkUnsupportedSet, v ∉ bizhawkLegacySet := by decide

/-- The version-dependent tail of `BizHawkContext::prepare`, factored out so
that theorems can rewrite the detected version into it. -/
def bizhawkVersionBranch (h : HashFn) (d p : List Nat) (w : World)
    (self : BizHawkContext) :
    Option (Option String) →
      Option (Except Error (BizHawkContext × World × List (Path × List Nat)))
  | none => none
  | some (some ver) =>
    if ver ∈ bizhawkLegacySet then
      let r := copy_if_different h p (self.working_dir.push "start-bizhawk.sh") w
      some (Except.ok (self, r.1, r.2))
    else if ver ∈ bizhawkUnsupportedSet then
      some (Except.error Error.IncompatibleOSVersion)
    else
      let r := copy_if_different h d (self.working_dir.push "start-bizhawk.sh") w
      some (Except.ok (self, r.1, r.2))
  | some none =>
    let r := copy_if_different h d (self.working_dir.push "start-bizhawk.sh") w
    some (Except.ok (self, r.1, r.2))

theorem bizhawk_prepare_fields_ok (h : HashFn) (d p : List Nat) (w : World)
    (self : BizHawkContext)
    (hcfg : checkField w self.config Error.MissingConfig = none)
    (hmov : checkField w self.movie Error.MissingMovie = none)
    (hlua : checkField w self.lua Error.MissingLua = none)
    (hrom : checkField w self.rom Error.MissingRom = none) :
    self.prepare h d p w = bizhawkVersionBranch h d p w self (self.detect_version h w) := by
  unfold BizHawkContext.prepare
  rw [hcfg, hmov, hlua, hrom]
  cases hdet : self.detect_version h w with
  | none => rfl
  | some verOpt =>
    cases verOpt with
    | none => rfl
    | some v => rfl

theorem bizhawk_prepare_cfg_err (h : HashFn) (d p : List Nat) (w : World)
    (self : BizHawkContext) (e : Error)
    (hcfg : checkField w self.config Error.MissingConfig = some e) :
    self.prepare h d p w = some (Except.error e) := by
  unfold BizHawkContext.prepare
  rw [hcfg]

theorem bizhawk_prepare_mov_err (h : HashFn) (d p : List Nat) (w : World)
    (self : BizHawkContext) (e : Error)
    (hcfg : checkField w self.config Error.MissingConfig = none)
    (hmov : checkField w self.movie Error.MissingMovie = some e) :
    self.prepare h d p w = some (Except.error e) := by
  unfold BizHawkContext.prepare
  rw [hcfg, hmov]

theorem bizhawk_prepare_lua_err (h : HashFn) (d p : List Nat) (w : World)
    (self : BizHawkContext) (e : Error)
    (hcfg : checkField w self.config Error.MissingConfig = none)
    (hmov : checkField w self.movie Error.MissingMovie = none)
    (hlua : checkField w self.lua Error.MissingLua = some e) :
    self.prepare h d p w = some (Except.error e) := by
  unfold BizHawkContext.prepare
  rw [hcfg, hmov, hlua]

theorem bizhawk_prepare_rom_err (h : HashFn) (d p : List Nat) (w : World)
    (self : BizHawkContext) (e : Error)
    (hcfg : checkField w self.config Error.MissingConfig = none)
    (hmov : checkField w self.movie Error.MissingMovie = none)
    (hlua : checkField w self.lua Error.MissingLua = none)
    (hrom : checkField w self.rom Error.MissingRom = some e) :
    self.prepare h d p w = some (Except.error e) := by
  unfold BizHawkContext.prepare
  rw [hcfg, hmov, hlua, hrom]

theorem bizhawk_prepare_no_ok_of_unsupported (h : HashFn) (d p : List Nat) (w : World)
    (self : BizHawkContext) (v : String)
    (hdet : self.detect_version h w = some (some v)) (hv : v ∈ bizhawkUnsupportedSet) :
    ∀ r, self.prepare h d p w ≠ some (Except.ok r) := by
  intro r hc
  cases hcfg : checkField w self.config Error.MissingConfig with
  | some e => rw [bizhawk_prepare_cfg_err h d p w self e hcfg] at hc; simp at hc
  | none =>
  cases hmov : checkField w self.movie Error.MissingMovie with
  | some e => rw [bizhawk_prepare_mov_err h d p w self e hcfg hmov] at hc; simp at hc
  | none =>
  cases hlua : checkField w self.lua Error.MissingLua with
  | some e => rw [bizhawk_prepare_lua_err h d p w self e hcfg hmov hlua] at hc; simp at hc
  | none =>
  cases hrom : checkField w self.rom Error.MissingRom with
  | some e => rw [bizhawk_prepare_rom_err h d p w self e hcfg hmov hlua hrom] at hc; simp at hc
  | none =>
  rw [bizhawk_prepare_fields_ok h d p w self hcfg hmov hlua hrom, hdet] at hc
  rw [bizhawkVersionBranch, if_neg (bizhawkUnsupported_not_legacy v hv), if_pos hv] at hc
  simp at hc

/-- C3 counterexample: a context whose executable fingerprints to the
unsupported version "2.4" but whose attached config path does not exist.
`prepare` returns `MissingConfig`, not `IncompatibleOSVersion`, so the claim
as stated fails on this input. -/
theorem c3_counterexample :
    BizHawkContext.detect_version (fun _ => "2668ef81bad2459a9a14a09a3a8d5ee2c6e9cbac")
        ⟨[(⟨true, ["b", "EmuHawk.exe"]⟩, [0])], [], ⟨true, []⟩⟩
        ⟨some ⟨false, ["nope"]⟩, none, none, none, ⟨true, ["b"]⟩⟩ = some (some "2.4") ∧
    BizHawkContext.prepare (fun _ => "2668ef81bad2459a9a14a09a3a8d5ee2c6e9cbac") [0] [1]
        ⟨[(⟨true, ["b", "EmuHawk.exe"]⟩, [0])], [], ⟨true, []⟩⟩
        ⟨some ⟨false, ["nope"]⟩, none, none, none, ⟨true, ["b"]⟩⟩
      = some (Except.error (Error.MissingConfig ⟨false, ["nope"]⟩)) ∧
    BizHawkContext.prepare (fun _ => "2668ef81bad2459a9a14a09a3a8d5ee2c6e9cbac") [0] [1]
        ⟨[(⟨true, ["b", "EmuHawk.exe"]⟩, [0])], [], ⟨true, []⟩⟩
        ⟨some ⟨false, ["nope"]⟩, none, none, none, ⟨true, ["b"]⟩⟩
      ≠ some (Except.error Error.IncompatibleOSVersion) := by
  refine ⟨by decide, by decide, by decide⟩

/-- C3 (amended): when the detected version is in the unsupported set,
`prepare` returns `IncompatibleOSVersion` provided the optional path fields
pass their validation; and in every case `prepare` never succeeds, so `run`
never assembles or spawns a command for such a context. -/
theorem c3_unsupported_version_rejected (h : HashFn) (d p : List Nat) (w : World)
    (self : BizHawkContext) (v : String)
    (hdet : self.detect_version h w = some (some v))
    (hv : v ∈ bizhawkUnsupportedSet) :
    ((checkField w self.config Error.MissingConfig = none ∧
      checkField w self.movie Error.MissingMovie = none ∧
      checkField w self.lua Error.MissingLua = none ∧
      checkField w self.rom Error.MissingRom = none) →
        self.prepare h d p w = some (Except.error Error.IncompatibleOSVersion)) ∧
    (∀ res, bizhawkRun h d p w self ≠ some (Except.ok res)) := by
  constructor
  · rintro ⟨hcfg, hmov, hlua, hrom⟩
    rw [bizhawk_prepare_fields_ok h d p w self hcfg hmov hlua hrom, hdet]
    rw [bizhawkVersionBranch, if_neg (bizhawkUnsupported_not_legacy v hv), if_pos hv]
  · intro res hc
    unfold bizhawkRun at hc
    cases hp : self.prepare h d p w with
    | none => rw [hp] at hc; simp at hc
    | some x =>
      cases x with
      | error e => rw [hp] at hc; simp at hc
      | ok r =>
        exact bizhawk_prepare_no_ok_of_unsupported h d p w self v hdet hv r hp

theorem c3_unsupported_version_rejected_witness :
    BizHawkContext.prepare (fun _ => "7bcc6337005dba33fbc8a454cf7f669563f39e85") [0] [1]
        ⟨[(⟨true, ["b", "EmuHawk.exe"]⟩, [0])], [], ⟨true, []⟩⟩
        ⟨none, none, none, none, ⟨true, ["b"]⟩⟩
      = some (Except.error Error.IncompatibleOSVersion) ∧
    bizhawkRun (fun _ => "7bcc6337005dba33fbc8a454cf7f669563f39e85") [0] [1]
        ⟨[(⟨true, ["b", "EmuHawk.exe"]⟩, [0])], [], ⟨true, []⟩⟩
        ⟨none, none, none, none, ⟨true, ["b"]⟩⟩
      ≠ some (Except.ok (⟨"bash", ["start-bizhawk.sh"], [], ⟨true, ["b"]⟩⟩,
          ⟨[(⟨true, ["b", "EmuHawk.exe"]⟩, [0])], [], ⟨true, []⟩⟩, [])) :=
  ⟨(c3_unsupported_version_rejected (fun _ => "7bcc6337005dba33fbc8a454cf7f669563f39e85")
      [0] [1] ⟨[(⟨true, ["b", "EmuHawk.exe"]⟩, [0])], [], ⟨true, []⟩⟩
      ⟨none, none, none, none, ⟨true, ["b"]⟩⟩ "2.5.2" (by decide) (by decide)).1
      ⟨by decide, by decide, by decide, by decide⟩,
   (c3_unsupported_version_rejected (fun _ => "7bcc6337005dba33fbc8a454cf7f669563f39e85")
      [0] [1] ⟨[(⟨true, ["b", "EmuHawk.exe"]⟩, [0])], [], ⟨true, []⟩⟩
      ⟨none, none, none, none, ⟨true, ["b"]⟩⟩ "2.5.2" (by decide) (by decide)).2
      (⟨"bash", ["start-bizhawk.sh"], [], ⟨true, ["b"]⟩⟩,
        ⟨[(⟨true, ["b", "EmuHawk.exe"]⟩, [0])], [], ⟨true, []⟩⟩, [])⟩

theorem copy_if_different_log (h : HashFn) (data : List Nat) (dest : Path) (w : World) :
    ∀ e ∈ (copy_if_different h data dest w).2, e.1 = w.resolve dest := by
  unfold copy_if_different
  cases hr : w.readFile dest with
  | some old =>
    by_cases he : h data = h old
    · simp [he]
    · simp [he]
  | none => simp

/-- C4 counterexample: with all optional path fields absent (hence passing
validation) and an executable fingerprinting to "2.5.2" — a label outside the
legacy set — `prepare` does not stage the default payload: it fails with
`IncompatibleOSVersion` and stages nothing. -/
theorem c4_counterexample :
    BizHawkContext.detect_version (fun _ => "7bcc6337005dba33fbc8a454cf7f669563f39e85")
        ⟨[(⟨true, ["b", "EmuHawk.exe"]⟩, [0])], [], ⟨true, []⟩⟩
        ⟨none, none, none, none, ⟨true, ["b"]⟩⟩ = some (some "2.5.2") ∧
    BizHawkContext.prepare (fun _ => "7bcc6337005dba33fbc8a454cf7f669563f39e85") [0] [1]
        ⟨[(⟨true, ["b", "EmuHawk.exe"]⟩, [0])], [], ⟨true, []⟩⟩
        ⟨none, none, none, none, ⟨true, ["b"]⟩⟩
      = some (Except.error Error.IncompatibleOSVersion) ∧
    BizHawkContext.prepare (fun _ => "7bcc6337005dba33fbc8a454cf7f669563f39e85") [0] [1]
        ⟨[(⟨true, ["b", "EmuHawk.exe"]⟩, [0])], [], ⟨true, []⟩⟩
        ⟨none, none, none, none, ⟨true, ["b"]⟩⟩
      ≠ some (Except.ok (⟨none, none, none, none, ⟨true, ["b"]⟩⟩,
          (copy_if_different (fun _ => "7bcc6337005dba33fbc8a454cf7f669563f39e85") [0]
            (Path.push ⟨true, ["b"]⟩ "start-bizhawk.sh")
            ⟨[(⟨true, ["b", "EmuHawk.exe"]⟩, [0])], [], ⟨true, []⟩⟩).1,
          (copy_if_different (fun _ => "7bcc6337005dba33fbc8a454cf7f669563f39e85") [0]
            (Path.push ⟨true, ["b"]⟩ "start-bizhawk.sh")
            ⟨[(⟨true, ["b", "EmuHawk.exe"]⟩, [0])], [], ⟨true, []⟩⟩).2)) := by
  refine ⟨by decide, by decide, by decide⟩

/-- C4 (amended): when every optional path field passes validation, `prepare`
stages exactly one bootstrap payload into the working directory under the
fixed filename `start-bizhawk.sh` via copy-on-difference: the pre-2.90
payload when the detected version is in the legacy set, and the default
payload when the detected version is any label outside both the legacy and
the unsupported sets, or when no version is detected at all; every write it
performs lands on that fixed destination. -/
theorem c4_bootstrap_payload_selection (h : HashFn) (d p : List Nat) (w : World)
    (self : BizHawkContext)
    (hcfg : checkField w self.config Error.MissingConfig = none)
    (hmov : checkField w self.movie Error.MissingMovie = none)
    (hlua : checkField w self.lua Error.MissingLua = none)
    (hrom : checkField w self.rom Error.MissingRom = none) :
    (∀ v, self.detect_version h w = some (some v) → v ∈ bizhawkLegacySet →
      self.prepare h d p w = some (Except.ok (self,
        (copy_if_different h p (self.working_dir.push "start-bizhawk.sh") w).1,
        (copy_if_different h p (self.working_dir.push "start-bizhawk.sh") w).2))) ∧
    (∀ v, self.detect_version h w = some (some v) → v ∉ bizhawkLegacySet →
        v ∉ bizhawkUnsupportedSet →
      self.prepare h d p w = some (Except.ok (self,
        (copy_if_different h d (self.working_dir.push "start-bizhawk.sh") w).1,
        (copy_if_different h d (self.working_dir.push "start-bizhawk.sh") w).2))) ∧
    (self.detect_version h w = some none →
      self.prepare h d p w = some (Except.ok (self,
        (copy_if_different h d (self.working_dir.push "start-bizhawk.sh") w).1,
        (copy_if_different h d (self.working_dir.push "start-bizhawk.sh") w).2))) ∧
    (∀ data e, e ∈ (copy_if_different h data (self.working_dir.push "start-bizhawk.sh") w).2 →
      e.1 = w.resolve (self.working_dir.push "start-bizhawk.sh")) := by
  refine ⟨?_, ?_, ?_, ?_⟩
  · intro v hdet hleg
    rw [bizhawk_prepare_fields_ok h d p w self hcfg hmov hlua hrom, hdet]
    rw [bizhawkVersionBranch, if_pos hleg]
  · intro v hdet hleg hunsup
    rw [bizhawk_prepare_fields_ok h d p w self hcfg hmov hlua hrom, hdet]
    rw [bizhawkVersionBranch, if_neg hleg, if_neg hunsup]
  · intro hdet
    rw [bizhawk_prepare_fields_ok h d p w self hcfg hmov hlua hrom, hdet]
    rw [bizhawkVersionBranch]
  · intro data e hmem
    exact copy_if_different_log h data (self.working_dir.push "start-bizhawk.sh") w e hmem

theorem c4_bootstrap_payload_selection_witness :
    BizHawkContext.prepare (fun _ => "eac6aa28589372d120e23e5b2f69b56c2542273b") [0] [1]
        ⟨[(⟨true, ["b", "EmuHawk.exe"]⟩, [7])], [], ⟨true, []⟩⟩
        ⟨none, none, none, none, ⟨true, ["b"]⟩⟩
      = some (Except.ok (⟨none, none, none, none, ⟨true, ["b"]⟩⟩,
          (copy_if_different (fun _ => "eac6aa28589372d120e23e5b2f69b56c2542273b") [1]
            (Path.push ⟨true, ["b"]⟩ "start-bizhawk.sh")
            ⟨[(⟨true, ["b", "EmuHawk.exe"]⟩, [7])], [], ⟨true, []⟩⟩).1,
          (copy_if_different (fun _ => "eac6aa28589372d120e23e5b2f69b56c2542273b") [1]
            (Path.push ⟨true, ["b"]⟩ "start-bizhawk.sh")
            ⟨[(⟨true, ["b", "EmuHawk.exe"]⟩, [7])], [], ⟨true, []⟩⟩).2)) ∧
    BizHawkContext.prepare (fun _ => "c9be7f8e4a05122e60545e8988920b710bd50ea7") [0] [1]
        ⟨[(⟨true, ["b", "EmuHawk.exe"]⟩, [7])], [], ⟨true, []⟩⟩
        ⟨none, none, none, none, ⟨true, ["b"]⟩⟩
      = some (Except.ok (⟨none, none, none, none, ⟨true, ["b"]⟩⟩,
          (copy_if_different (fun _ => "c9be7f8e4a05122e60545e8988920b710bd50ea7") [0]
            (Path.push ⟨true, ["b"]⟩ "start-bizhawk.sh")
            ⟨[(⟨true, ["b", "EmuHawk.exe"]⟩, [7])], [], ⟨true, []⟩⟩).1,
          (copy_if_different (fun _ => "c9be7f8e4a05122e60545e8988920b710bd50ea7") [0]
            (Path.push ⟨true, ["b"]⟩ "start-bizhawk.sh")
            ⟨[(⟨true, ["b", "EmuHawk.exe"]⟩, [7])], [], ⟨true, []⟩⟩).2)) :=
  ⟨(c4_bootstrap_payload_selection (fun _ => "eac6aa28589372d120e23e5b2f69b56c2542273b")
      [0] [1] ⟨[(⟨true, ["b", "EmuHawk.exe"]⟩, [7])], [], ⟨true, []⟩⟩
      ⟨none, none, none, none, ⟨true, ["b"]⟩⟩
      (by decide) (by decide) (by decide) (by decide)).1 "2.7" (by decide) (by decide),
   ((c4_bootstrap_payload_selection (fun _ => "c9be7f8e4a05122e60545e8988920b710bd50ea7")
      [0] [1] ⟨[(⟨true, ["b", "EmuHawk.exe"]⟩, [7])], [], ⟨true, []⟩⟩
      ⟨none, none, none, none, ⟨true, ["b"]⟩⟩
      (by decide) (by decide) (by decide) (by decide)).2.1 "2.9" (by decide) (by decide)
      (by decide))⟩

/-- C7 counterexample: the Gens builder `with_rom` stores the given path
unchanged even when canonicalization would succeed and produce a different
(absolute) path, so the claim that every adapter's builders store the
canonicalized form fails on the Gens adapter. -/
theorem c7_counterexample :
    (GensContext.with_rom ⟨false, ["r"]⟩
        ⟨GensVersion.Ver11A, false, none, none, none, ⟨true, ["g"]⟩⟩).rom
      = some ⟨false, ["r"]⟩ ∧
    (GensContext.with_rom ⟨false, ["r"]⟩
        ⟨GensVersion.Ver11A, false, none, none, none, ⟨true, ["g"]⟩⟩).rom
      ≠ some ((((fun _ => some ⟨true, ["c", "r"]⟩) : Path → Option Path)
          ⟨false, ["r"]⟩).getD ⟨false, ["r"]⟩) := by
  refine ⟨rfl, by decide⟩

/-- C7 (amended): the BizHawk and FCEUX builder methods store the
opportunistically canonicalized path (the original path when canonicalization
fails), and never return an error; the Gens builder methods store the given
path unchanged. -/
theorem c7_builders_canonicalize (canon : Path → Option Path) (q : Path)
    (bctx : BizHawkContext) (fctx : FceuxContext) (gctx : GensContext) :
    (bctx.with_config canon q).config = some ((canon q).getD q) ∧
    (bctx.with_movie canon q).movie = some ((canon q).getD q) ∧
    (bctx.with_lua canon q).lua = some ((canon q).getD q) ∧
    (bctx.with_rom canon q).rom = some ((canon q).getD q) ∧
    (fctx.with_config canon q).config = some ((canon q).getD q) ∧
    (fctx.with_movie canon q).movie = some ((canon q).getD q) ∧
    (fctx.with_lua canon q).lua = some ((canon q).getD q) ∧
    (fctx.with_rom canon q).rom = some ((canon q).getD q) ∧
    (gctx.with_rom q).rom = some q ∧
    (gctx.with_movie q).movie = some q ∧
    (gctx.with_lua q).lua = some q :=
  ⟨rfl, rfl, rfl, rfl, rfl, rfl, rfl, rfl, rfl, rfl, rfl⟩

/-- C9: the FCEUX candidate executable is the first of fceux, fceux.exe,
fceux64.exe, qfceux.exe present as a regular file in the working directory;
the argument dialect follows the candidate (`-cfg`/`-playmovie`/`-lua` for
fceux.exe and fceux64.exe, `--playmov`/`--loadlua` and no config argument
for fceux and qfceux.exe, with the wine invocations naming the Windows
executable first); and the rom path, when present, is always the last
argument. -/
theorem c9_fceux_executable_and_dialect (w : World) (self : FceuxContext) :
    (w.isFile (self.working_dir.push "fceux") = true →
      self.determine_executable w = some "fceux") ∧
    (w.isFile (self.working_dir.push "fceux") = false →
      w.isFile (self.working_dir.push "fceux.exe") = true →
      self.determine_executable w = some "fceux.exe") ∧
    (w.isFile (self.working_dir.push "fceux") = false →
      w.isFile (self.working_dir.push "fceux.exe") = false →
      w.isFile (self.working_dir.push "fceux64.exe") = true →
      self.determine_executable w = some "fceux64.exe") ∧
    (w.isFile (self.working_dir.push "fceux") = false →
      w.isFile (self.working_dir.push "fceux.exe") = false →
      w.isFile (self.working_dir.push "fceux64.exe") = false →
      w.isFile (self.working_dir.push "qfceux.exe") = true →
      self.determine_executable w = some "qfceux.exe") ∧
    (w.isFile (self.working_dir.push "fceux") = false →
      w.isFile (self.working_dir.push "fceux.exe") = false →
      w.isFile (self.working_dir.push "fceux64.exe") = false →
      w.isFile (self.working_dir.push "qfceux.exe") = false →
      self.determine_executable w = none) ∧
    (self.determine_executable w = some "fceux.exe" →
      self.args w = ["fceux.exe"]
        ++ (match self.config with | some c => ["-cfg", c.toStr] | none => [])
        ++ (match self.movie with | some m => ["-playmovie", m.toStr] | none => [])
        ++ (match self.lua with | some l => ["-lua", l.toStr] | none => [])
        ++ (match self.rom with | some r => [r.toStr] | none => [])) ∧
    (self.determine_executable w = some "fceux64.exe" →
      self.args w = ["fceux64.exe"]
        ++ (match self.config with | some c => ["-cfg", c.toStr] | none => [])
        ++ (match self.movie with | some m => ["-playmovie", m.toStr] | none => [])
        ++ (match self.lua with | some l => ["-lua", l.toStr] | none => [])
        ++ (match self.rom with | some r => [r.toStr] | none => [])) ∧
    (self.determine_executable w = some "fceux" →
      self.args w =
        (match self.movie with | some m => ["--playmov", m.toStr] | none => [])
        ++ (match self.lua with | some l => ["--loadlua", l.toStr] | none => [])
        ++ (match self.rom with | some r => [r.toStr] | none => [])) ∧
    (self.determine_executable w = some "qfceux.exe" →
      self.args w = ["qfceux.exe"]
        ++ (match self.movie with | some m => ["--playmov", m.toStr] | none => [])
        ++ (match self.lua with | some l => ["--loadlua", l.toStr] | none => [])
        ++ (match self.rom with | some r => [r.toStr] | none => [])) ∧
    (∀ r, self.rom = some r → (self.args w).getLast? = some r.toStr) := by
  refine ⟨?_, ?_, ?_, ?_, ?_, ?_, ?_, ?_, ?_, ?_⟩
  · intro h1; unfold FceuxContext.determine_executable; simp [h1]
  · intro h1 h2; unfold FceuxContext.determine_executable; simp [h1, h2]
  · intro h1 h2 h3; unfold FceuxContext.determine_executable; simp [h1, h2, h3]
  · intro h1 h2 h3 h4; unfold FceuxContext.determine_executable; simp [h1, h2, h3, h4]
  · intro h1 h2 h3 h4; unfold FceuxContext.determine_executable; simp [h1, h2, h3, h4]
  · intro hdet
    unfold FceuxContext.args FceuxContext.cmd_name
    rw [hdet]
    simp
  · intro hdet
    unfold FceuxContext.args FceuxContext.cmd_name
    rw [hdet]
    simp
  · intro hdet
    unfold FceuxContext.args FceuxContext.cmd_name
    rw [hdet]
    simp
  · intro hdet
    unfold FceuxContext.args FceuxContext.cmd_name
    rw [hdet]
    simp
  · intro r hrom
    unfold FceuxContext.args
    rw [hrom]
    rw [List.getLast?_concat]

theorem c9_fceux_executable_and_dialect_witness :
    FceuxContext.determine_executable
        ⟨[(⟨true, ["f", "fceux.exe"]⟩, [0])], [], ⟨true, []⟩⟩
        ⟨some ⟨true, ["cfg"]⟩, some ⟨true, ["mov"]⟩, none, some ⟨true, ["rom"]⟩, ⟨true, ["f"]⟩⟩
      = some "fceux.exe" ∧
    FceuxContext.args ⟨[(⟨true, ["f", "fceux.exe"]⟩, [0])], [], ⟨true, []⟩⟩
        ⟨some ⟨true, ["cfg"]⟩, some ⟨true, ["mov"]⟩, none, some ⟨true, ["rom"]⟩, ⟨true, ["f"]⟩⟩
      = ["fceux.exe", "-cfg", "/cfg", "-playmovie", "/mov", "/rom"] ∧
    (FceuxContext.args ⟨[(⟨true, ["f", "fceux.exe"]⟩, [0])], [], ⟨true, []⟩⟩
        ⟨some ⟨true, ["cfg"]⟩, some ⟨true, ["mov"]⟩, none, some ⟨true, ["rom"]⟩,
          ⟨true, ["f"]⟩⟩).getLast?
      = some "/rom" :=
  ⟨(c9_fceux_executable_and_dialect
      ⟨[(⟨true, ["f", "fceux.exe"]⟩, [0])], [], ⟨true, []⟩⟩
      ⟨some ⟨true, ["cfg"]⟩, some ⟨true, ["mov"]⟩, none, some ⟨true, ["rom"]⟩,
        ⟨true, ["f"]⟩⟩).2.1 (by decide) (by decide),
   (c9_fceux_executable_and_dialect
      ⟨[(⟨true, ["f", "fceux.exe"]⟩, [0])], [], ⟨true, []⟩⟩
      ⟨some ⟨true, ["cfg"]⟩, some ⟨true, ["mov"]⟩, none, some ⟨true, ["rom"]⟩,
        ⟨true, ["f"]⟩⟩).2.2.2.2.2.1 (by decide),
   (c9_fceux_executable_and_dialect
      ⟨[(⟨true, ["f", "fceux.exe"]⟩, [0])], [], ⟨true, []⟩⟩
      ⟨some ⟨true, ["cfg"]⟩, some ⟨true, ["mov"]⟩, none, some ⟨true, ["rom"]⟩,
        ⟨true, ["f"]⟩⟩).2.2.2.2.2.2.2.2.2 ⟨true, ["rom"]⟩ rfl⟩

/- Statement vocabulary for the absolute-path invariant: a field that refers
to an existing regular file through a non-absolute path, and a field that
passes the shared validation (absent, or an existing absolute file). -/

def fieldExistsNotAbs (w : World) (o : Option Path) : Bool :=
  match o with
  | some q => w.isFile q && !q.isAbsolute
  | none => false

def fieldPassesCheck (w : World) (o : Option Path) : Bool :=
  match o with
  | none => true
  | some q => w.isFile q && q.isAbsolute

theorem checkField_of_existsNotAbs (w : World) (o : Option Path) (mk : Path → Error)
    (ho : fieldExistsNotAbs w o = true) :
    checkField w o mk = some Error.AbsolutePathFailed := by
  match o with
  | none => simp [fieldExistsNotAbs] at ho
  | some q =>
    simp only [fieldExistsNotAbs, Bool.and_eq_true, Bool.not_eq_true'] at ho
    simp [checkField, ho.1, ho.2]

theorem checkField_none_of_passes (w : World) (o : Option Path) (mk : Path → Error)
    (ho : fieldPassesCheck w o = true) :
    checkField w o mk = none := by
  match o with
  | none => rfl
  | some q =>
    simp only [fieldPassesCheck, Bool.and_eq_true] at ho
    simp [checkField, ho.1, ho.2]

theorem existsNotAbs_of_checkField_apf (w : World) (o : Option Path) (mk : Path → Error)
    (hmk : ∀ q, mk q ≠ Error.AbsolutePathFailed)
    (hc : checkField w o mk = some Error.AbsolutePathFailed) :
    fieldExistsNotAbs w o = true := by
  match o with
  | none => simp [checkField] at hc
  | some q =>
    simp only [checkField] at hc
    by_cases hf : w.isFile q = true
    · rw [if_pos hf] at hc
      by_cases ha : q.isAbsolute = true
      · rw [if_pos ha] at hc; cases hc
      · have ha' : q.isAbsolute = false := by
          cases hb : q.isAbsolute
          · rfl
          · exact absurd hb ha
        simp [fieldExistsNotAbs, hf, ha']
    · rw [if_neg hf] at hc
      exact absurd (by injection hc) (hmk q)

theorem passes_of_checkField_none (w : World) (o : Option Path) (mk : Path → Error)
    (hc : checkField w o mk = none) :
    fieldPassesCheck w o = true := by
  match o with
  | none => rfl
  | some q =>
    simp only [checkField] at hc
    by_cases hf : w.isFile q = true
    · rw [if_pos hf] at hc
      by_cases ha : q.isAbsolute = true
      · simp [fieldPassesCheck, hf, ha]
      · rw [if_neg ha] at hc; cases hc
    · rw [if_neg hf] at hc; cases hc

theorem checkField_missing (w : World) (q : Path) (mk : Path → Error)
    (hf : w.isFile q = false) :
    checkField w (some q) mk = some (mk q) := by
  simp [checkField, hf]

/- FCEUX prepare reduction lemmas. -/

theorem fceux_prepare_cfg_err (h : HashFn) (w : World) (self : FceuxContext) (e : Error)
    (hcs : self.configStep h w = Except.error e) :
    self.prepare h w = Except.error e := by
  unfold FceuxContext.prepare
  rw [hcs]

theorem fceux_prepare_mov_err (h : HashFn) (w : World) (self : FceuxContext)
    (w1 : World) (log : List (Path × List Nat)) (e : Error)
    (hcs : self.configStep h w = Except.ok (w1, log))
    (hmov : checkField w1 self.movie Error.MissingMovie = some e) :
    self.prepare h w = Except.error e := by
  unfold FceuxContext.prepare
  rw [hcs]
  dsimp only
  rw [hmov]

theorem fceux_prepare_lua_err (h : HashFn) (w : World) (self : FceuxContext)
    (w1 : World) (log : List (Path × List Nat)) (e : Error)
    (hcs : self.configStep h w = Except.ok (w1, log))
    (hmov : checkField w1 self.movie Error.MissingMovie = none)
    (hlua : checkField w1 self.lua Error.MissingLua = some e) :
    self.prepare h w = Except.error e := by
  unfold FceuxContext.prepare
  rw [hcs]
  dsimp only
  rw [hmov, hlua]

theorem fceux_prepare_rom_err (h : HashFn) (w : World) (self : FceuxContext)
    (w1 : World) (log : List (Path × List Nat)) (e : Error)
    (hcs : self.configStep h w = Except.ok (w1, log))
    (hmov : checkField w1 self.movie Error.MissingMovie = none)
    (hlua : checkField w1 self.lua Error.MissingLua = none)
    (hrom : checkField w1 self.rom Error.MissingRom = some e) :
    self.prepare h w = Except.error e := by
  unfold FceuxContext.prepare
  rw [hcs]
  dsimp only
  rw [hmov, hlua, hrom]

theorem fceux_prepare_all_ok (h : HashFn) (w : World) (self : FceuxContext)
    (w1 : World) (log : List (Path × List Nat))
    (hcs : self.configStep h w = Except.ok (w1, log))
    (hmov : checkField w1 self.movie Error.MissingMovie = none)
    (hlua : checkField w1 self.lua Error.MissingLua = none)
    (hrom : checkField w1 self.rom Error.MissingRom = none) :
    self.prepare h w = Except.ok (self, w1, log) := by
  unfold FceuxContext.prepare
  rw [hcs]
  dsimp only
  rw [hmov, hlua, hrom]

theorem bizhawkVersionBranch_no_apf (h : HashFn) (d p : List Nat) (w : World)
    (self : BizHawkContext) :
    ∀ x, bizhawkVersionBranch h d p w self x ≠ some (Except.error Error.AbsolutePathFailed) := by
  intro x
  match x with
  | none => simp [bizhawkVersionBranch]
  | some none => simp [bizhawkVersionBranch]
  | some (some v) =>
    simp only [bizhawkVersionBranch]
    by_cases h1 : v ∈ bizhawkLegacySet
    · simp [h1]
    · by_cases h2 : v ∈ bizhawkUnsupportedSet
      · simp [h1, h2]
      · simp [h1, h2]

/-- C5 counterexample: an FCEUX context whose working directory holds
`fceux.exe` and whose config path is an existing regular file given by a
relative path, with movie, lua and rom absent.  `prepare` fails with
`AbsolutePathFailed` coming from the config block, although none of the
claim's scoped fields (movie, lua, rom) is an existing non-absolute path,
so the claimed equivalence fails on this input. -/
theorem c5_counterexample :
    FceuxContext.prepare (fun _ => "x")
        ⟨[(⟨true, ["f", "fceux.exe"]⟩, [0]), (⟨true, ["h", "c"]⟩, [1])], [], ⟨true, ["h"]⟩⟩
        ⟨some ⟨false, ["c"]⟩, none, none, none, ⟨true, ["f"]⟩⟩
      = Except.error Error.AbsolutePathFailed ∧
    (⟨some ⟨false, ["c"]⟩, none, none, none, ⟨true, ["f"]⟩⟩ : FceuxContext).movie = none ∧
    (⟨some ⟨false, ["c"]⟩, none, none, none, ⟨true, ["f"]⟩⟩ : FceuxContext).lua = none ∧
    (⟨some ⟨false, ["c"]⟩, none, none, none, ⟨true, ["f"]⟩⟩ : FceuxContext).rom = none := by
  refine ⟨by decide, rfl, rfl, rfl⟩

/-- C5 (amended): for the BizHawk adapter, `prepare` returns
`AbsolutePathFailed` if and only if some attached field (in the order
config, movie, lua, rom) is an existing regular file with a non-absolute
path while every earlier field passes its validation, and a field that is
not an existing regular file yields its Missing* error when all earlier
fields pass.  For the FCEUX adapter the same holds for the movie, lua and
rom fields provided the config block itself succeeds (the config block
applies its own executable-dependent rule and can itself yield
`AbsolutePathFailed` for the config path). -/
theorem c5_absolute_path_invariant (h : HashFn) (d p : List Nat) (w : World)
    (bself : BizHawkContext) (fself : FceuxContext) :
    (bself.prepare h d p w = some (Except.error Error.AbsolutePathFailed) ↔
      (fieldExistsNotAbs w bself.config = true ∨
        (fieldPassesCheck w bself.config = true ∧
          (fieldExistsNotAbs w bself.movie = true ∨
            (fieldPassesCheck w bself.movie = true ∧
              (fieldExistsNotAbs w bself.lua = true ∨
                (fieldPassesCheck w bself.lua = true ∧
                  fieldExistsNotAbs w bself.rom = true))))))) ∧
    (∀ c, bself.config = some c → w.isFile c = false →
      bself.prepare h d p w = some (Except.error (Error.MissingConfig c))) ∧
    (∀ m, fieldPassesCheck w bself.config = true → bself.movie = some m →
      w.isFile m = false →
      bself.prepare h d p w = some (Except.error (Error.MissingMovie m))) ∧
    (∀ l, fieldPassesCheck w bself.config = true → fieldPassesCheck w bself.movie = true →
      bself.lua = some l → w.isFile l = false →
      bself.prepare h d p w = some (Except.error (Error.MissingLua l))) ∧
    (∀ r, fieldPassesCheck w bself.config = true → fieldPassesCheck w bself.movie = true →
      fieldPassesCheck w bself.lua = true → bself.rom = some r → w.isFile r = false →
      bself.prepare h d p w = some (Except.error (Error.MissingRom r))) ∧
    (∀ w1 log, fself.configStep h w = Except.ok (w1, log) →
      ((fself.prepare h w = Except.error Error.AbsolutePathFailed ↔
         (fieldExistsNotAbs w1 fself.movie = true ∨
           (fieldPassesCheck w1 fself.movie = true ∧
             (fieldExistsNotAbs w1 fself.lua = true ∨
               (fieldPassesCheck w1 fself.lua = true ∧
                 fieldExistsNotAbs w1 fself.rom = true))))) ∧
       (∀ m, fself.movie = some m → w1.isFile m = false →
         fself.prepare h w = Except.error (Error.MissingMovie m)) ∧
       (∀ l, fieldPassesCheck w1 fself.movie = true → fself.lua = some l →
         w1.isFile l = false →
         fself.prepare h w = Except.error (Error.MissingLua l)) ∧
       (∀ r, fieldPassesCheck w1 fself.movie = true → fieldPassesCheck w1 fself.lua = true →
         fself.rom = some r → w1.isFile r = false →
         fself.prepare h w = Except.error (Error.MissingRom r)))) := by
  refine ⟨⟨?_, ?_⟩, ?_, ?_, ?_, ?_, ?_⟩
  · intro hpre
    cases hcfg : checkField w bself.config Error.MissingConfig with
    | some e =>
      rw [bizhawk_prepare_cfg_err h d p w bself e hcfg] at hpre
      have he : e = Error.AbsolutePathFailed := by simpa using hpre
      subst he
      exact Or.inl (existsNotAbs_of_checkField_apf w bself.config _
        (fun q hq => Error.noConfusion hq) hcfg)
    | none =>
      have hp1 := passes_of_checkField_none w bself.config _ hcfg
      cases hmov : checkField w bself.movie Error.MissingMovie with
      | some e =>
        rw [bizhawk_prepare_mov_err h d p w bself e hcfg hmov] at hpre
        have he : e = Error.AbsolutePathFailed := by simpa using hpre
        subst he
        exact Or.inr ⟨hp1, Or.inl (existsNotAbs_of_checkField_apf w bself.movie _
          (fun q hq => Error.noConfusion hq) hmov)⟩
      | none =>
        have hp2 := passes_of_checkField_none w bself.movie _ hmov
        cases hlua : checkField w bself.lua Error.MissingLua with
        | some e =>
          rw [bizhawk_prepare_lua_err h d p w bself e hcfg hmov hlua] at hpre
          have he : e = Error.AbsolutePathFailed := by simpa using hpre
          subst he
          exact Or.inr ⟨hp1, Or.inr ⟨hp2, Or.inl (existsNotAbs_of_checkField_apf w bself.lua _
            (fun q hq => Error.noConfusion hq) hlua)⟩⟩
        | none =>
          have hp3 := passes_of_checkField_none w bself.lua _ hlua
          cases hrom : checkField w bself.rom Error.MissingRom with
          | some e =>
            rw [bizhawk_prepare_rom_err h d p w bself e hcfg hmov hlua hrom] at hpre
            have he : e = Error.AbsolutePathFailed := by simpa using hpre
            subst he
            exact Or.inr ⟨hp1, Or.inr ⟨hp2, Or.inr ⟨hp3,
              existsNotAbs_of_checkField_apf w bself.rom _
                (fun q hq => Error.noConfusion hq) hrom⟩⟩⟩
          | none =>
            rw [bizhawk_prepare_fields_ok h d p w bself hcfg hmov hlua hrom] at hpre
            exact absurd hpre (bizhawkVersionBranch_no_apf h d p w bself _)
  · intro hr
    rcases hr with hcfg | ⟨hp1, hr⟩
    · exact bizhawk_prepare_cfg_err h d p w bself _
        (checkField_of_existsNotAbs w bself.config _ hcfg)
    · rcases hr with hmov | ⟨hp2, hr⟩
      · exact bizhawk_prepare_mov_err h d p w bself _
          (checkField_none_of_passes w bself.config _ hp1)
          (checkField_of_existsNotAbs w bself.movie _ hmov)
      · rcases hr with hlua | ⟨hp3, hrom⟩
        · exact bizhawk_prepare_lua_err h d p w bself _
            (checkField_none_of_passes w bself.config _ hp1)
            (checkField_none_of_passes w bself.movie _ hp2)
            (checkField_of_existsNotAbs w bself.lua _ hlua)
        · exact bizhawk_prepare_rom_err h d p w bself _
            (checkField_none_of_passes w bself.config _ hp1)
            (checkField_none_of_passes w bself.movie _ hp2)
            (checkField_none_of_passes w bself.lua _ hp3)
            (checkField_of_existsNotAbs w bself.rom _ hrom)
  · intro c hc hf
    refine bizhawk_prepare_cfg_err h d p w bself _ ?_
    rw [hc]
    exact checkField_missing w c _ hf
  · intro m hp1 hm hf
    refine bizhawk_prepare_mov_err h d p w bself _
      (checkField_none_of_passes w bself.config _ hp1) ?_
    rw [hm]
    exact checkField_missing w m _ hf
  · intro l hp1 hp2 hl hf
    refine bizhawk_prepare_lua_err h d p w bself _
      (checkField_none_of_passes w bself.config _ hp1)
      (checkField_none_of_passes w bself.movie _ hp2) ?_
    rw [hl]
    exact checkField_missing w l _ hf
  · intro r hp1 hp2 hp3 hrm hf
    refine bizhawk_prepare_rom_err h d p w bself _
      (checkField_none_of_passes w bself.config _ hp1)
      (checkField_none_of_passes w bself.movie _ hp2)
      (checkField_none_of_passes w bself.lua _ hp3) ?_
    rw [hrm]
    exact checkField_missing w r _ hf
  · intro w1 log hcs
    refine ⟨⟨?_, ?_⟩, ?_, ?_, ?_⟩
    · intro hpre
      cases hmov : checkField w1 fself.movie Error.MissingMovie with
      | some e =>
        rw [fceux_prepare_mov_err h w fself w1 log e hcs hmov] at hpre
        have he : e = Error.AbsolutePathFailed := by simpa using hpre
        subst he
        exact Or.inl (existsNotAbs_of_checkField_apf w1 fself.movie _
          (fun q hq => Error.noConfusion hq) hmov)
      | none =>
        have hp1 := passes_of_checkField_none w1 fself.movie _ hmov
        cases hlua : checkField w1 fself.lua Error.MissingLua with
        | some e =>
          rw [fceux_prepare_lua_err h w fself w1 log e hcs hmov hlua] at hpre
          have he : e = Error.AbsolutePathFailed := by simpa using hpre
          subst he
          exact Or.inr ⟨hp1, Or.inl (existsNotAbs_of_checkField_apf w1 fself.lua _
            (fun q hq => Error.noConfusion hq) hlua)⟩
        | none =>
          have hp2 := passes_of_checkField_none w1 fself.lua _ hlua
          cases hrom : checkField w1 fself.rom Error.MissingRom with
          | some e =>
            rw [fceux_prepare_rom_err h w fself w1 log e hcs hmov hlua hrom] at hpre
            have he : e = Error.AbsolutePathFailed := by simpa using hpre
            subst he
            exact Or.inr ⟨hp1, Or.inr ⟨hp2, existsNotAbs_of_checkField_apf w1 fself.rom _
              (fun q hq => Error.noConfusion hq) hrom⟩⟩
          | none =>
            rw [fceux_prepare_all_ok h w fself w1 log hcs hmov hlua hrom] at hpre
            cases hpre
    · intro hr
      rcases hr with hmov | ⟨hp1, hr⟩
      · exact fceux_prepare_mov_err h w fself w1 log _ hcs
          (checkField_of_existsNotAbs w1 fself.movie _ hmov)
      · rcases hr with hlua | ⟨hp2, hrom⟩
        · exact fceux_prepare_lua_err h w fself w1 log _ hcs
            (checkField_none_of_passes w1 fself.movie _ hp1)
            (checkField_of_existsNotAbs w1 fself.lua _ hlua)
        · exact fceux_prepare_rom_err h w fself w1 log _ hcs
            (checkField_none_of_passes w1 fself.movie _ hp1)
            (checkField_none_of_passes w1 fself.lua _ hp2)
            (checkField_of_existsNotAbs w1 fself.rom _ hrom)
    · intro m hm hf
      refine fceux_prepare_mov_err h w fself w1 log _ hcs ?_
      rw [hm]
      exact checkField_missing w1 m _ hf
    · intro l hp1 hl hf
      refine fceux_prepare_lua_err h w fself w1 log _ hcs
        (checkField_none_of_passes w1 fself.movie _ hp1) ?_
      rw [hl]
      exact checkField_missing w1 l _ hf
    · intro r hp1 hp2 hrm hf
      refine fceux_prepare_rom_err h w fself w1 log _ hcs
        (checkField_none_of_passes w1 fself.movie _ hp1)
        (checkField_none_of_passes w1 fself.lua _ hp2) ?_
      rw [hrm]
      exact checkField_missing w1 r _ hf

theorem c5_absolute_path_invariant_witness :
    BizHawkContext.prepare (fun _ => "x") [0] [1]
        ⟨[(⟨true, ["h", "m"]⟩, [1])], [], ⟨true, ["h"]⟩⟩
        ⟨none, some ⟨false, ["m"]⟩, none, none, ⟨true, ["b"]⟩⟩
      = some (Except.error Error.AbsolutePathFailed) ∧
    FceuxContext.prepare (fun _ => "x")
        ⟨[(⟨true, ["h", "m"]⟩, [1])], [], ⟨true, ["h"]⟩⟩
        ⟨none, some ⟨false, ["m"]⟩, none, none, ⟨true, ["f"]⟩⟩
      = Except.error Error.AbsolutePathFailed :=
  ⟨(c5_absolute_path_invariant (fun _ => "x") [0] [1]
      ⟨[(⟨true, ["h", "m"]⟩, [1])], [], ⟨true, ["h"]⟩⟩
      ⟨none, some ⟨false, ["m"]⟩, none, none, ⟨true, ["b"]⟩⟩
      ⟨none, some ⟨false, ["m"]⟩, none, none, ⟨true, ["f"]⟩⟩).1.mpr
      (Or.inr ⟨by decide, Or.inl (by decide)⟩),
   ((c5_absolute_path_invariant (fun _ => "x") [0] [1]
      ⟨[(⟨true, ["h", "m"]⟩, [1])], [], ⟨true, ["h"]⟩⟩
      ⟨none, some ⟨false, ["m"]⟩, none, none, ⟨true, ["b"]⟩⟩
      ⟨none, some ⟨false, ["m"]⟩, none, none, ⟨true, ["f"]⟩⟩).2.2.2.2.2
      ⟨[(⟨true, ["h", "m"]⟩, [1])], [], ⟨true, ["h"]⟩⟩ [] rfl).1.mpr
      (Or.inl (by decide))⟩

/- Gens staging step characterizations. -/

theorem pstep_ok {α β : Type} (a : α) (f : α → Option (Except Error β)) :
    pstep (some (Except.ok a)) f = f a := rfl

theorem copy_if_different_world_cases (h : HashFn) (data : List Nat) (dest : Path)
    (w : World) :
    (copy_if_different h data dest w).1 = w ∨
    (copy_if_different h data dest w).1 = w.writeFile dest data := by
  unfold copy_if_different
  cases hr : w.readFile dest with
  | none => right; rfl
  | some old =>
    by_cases he : h data = h old
    · left; simp [he]
    · right; simp [he]

theorem copy_if_different_isFile_mono (h : HashFn) (data : List Nat) (dest : Path)
    (w : World) (q : Path) (hq : w.isFile q = true) :
    ((copy_if_different h data dest w).1).isFile q = true := by
  rcases copy_if_different_world_cases h data dest w with hc | hc
  · rw [hc]; exact hq
  · rw [hc]; exact World.isFile_writeFile_mono w dest data q hq

theorem copy_if_different_cwd (h : HashFn) (data : List Nat) (dest : Path) (w : World) :
    ((copy_if_different h data dest w).1).cwd = w.cwd := by
  rcases copy_if_different_world_cases h data dest w with hc | hc
  · rw [hc]
  · rw [hc]; rfl

theorem gensStageRom_none (h : HashFn) (self : GensContext) (w : World)
    (log : List (Path × List Nat)) (hr : self.rom = none) :
    gensStageRom h (self, w, log) = some (Except.ok (self, w, log)) := by
  unfold gensStageRom
  dsimp only
  rw [hr]

theorem gensStageRom_some (h : HashFn) (self : GensContext) (w : World)
    (log : List (Path × List Nat)) (r : Path) (n : String) (data : List Nat)
    (hr : self.rom = some r) (hread : w.readFile r = some data)
    (hn : r.fileName = some n) :
    gensStageRom h (self, w, log) = some (Except.ok ({ self with rom := some ⟨false, [n]⟩ },
      (copy_if_different h data (self.working_dir.push n) w).1,
      log ++ (copy_if_different h data (self.working_dir.push n) w).2)) := by
  have hf : w.isFile r = true := by unfold World.isFile; rw [hread]; rfl
  unfold gensStageRom
  dsimp only
  rw [hr]
  dsimp only
  rw [if_pos hf, hn]
  dsimp only
  rw [hread]

theorem gensStageMovie_none (h : HashFn) (self : GensContext) (w : World)
    (log : List (Path × List Nat)) (hm : self.movie = none) :
    gensStageMovie h (self, w, log) = some (Except.ok (self, w, log)) := by
  unfold gensStageMovie
  dsimp only
  rw [hm]

theorem gensStageMovie_abs (h : HashFn) (self : GensContext) (w : World)
    (log : List (Path × List Nat)) (m : Path)
    (hm : self.movie = some m) (hf : w.isFile m = true) (habs : m.isAbsolute = true) :
    gensStageMovie h (self, w, log) = some (Except.ok (self, w, log)) := by
  unfold gensStageMovie
  dsimp only
  rw [hm]
  dsimp only
  rw [if_pos hf, if_pos habs]

theorem gensStageMovie_rel (h : HashFn) (self : GensContext) (w : World)
    (log : List (Path × List Nat)) (m : Path) (n : String) (data : List Nat)
    (hm : self.movie = some m) (habs : m.isAbsolute = false)
    (hread : w.readFile m = some data) (hn : m.fileName = some n) :
    gensStageMovie h (self, w, log) = some (Except.ok ({ self with movie := some ⟨false, [n]⟩ },
      (copy_if_different h data (self.working_dir.push n) w).1,
      log ++ (copy_if_different h data (self.working_dir.push n) w).2)) := by
  have hf : w.isFile m = true := by unfold World.isFile; rw [hread]; rfl
  have habs' : ¬ m.isAbsolute = true := by rw [habs]; exact Bool.false_ne_true
  unfold gensStageMovie
  dsimp only
  rw [hm]
  dsimp only
  rw [if_pos hf, if_neg habs', hn]
  dsimp only
  rw [hread]

theorem gensStageLua_none (h : HashFn) (self : GensContext) (w : World)
    (log : List (Path × List Nat)) (hl : self.lua = none) :
    gensStageLua h (self, w, log) = some (Except.ok (self, w, log)) := by
  unfold gensStageLua
  dsimp only
  rw [hl]

theorem gensStageLua_abs (h : HashFn) (self : GensContext) (w : World)
    (log : List (Path × List Nat)) (l : Path)
    (hl : self.lua = some l) (hf : w.isFile l = true) (habs : l.isAbsolute = true) :
    gensStageLua h (self, w, log) = some (Except.ok (self, w, log)) := by
  unfold gensStageLua
  dsimp only
  rw [hl]
  dsimp only
  rw [if_pos hf, if_pos habs]

theorem gensStageLua_rel (h : HashFn) (self : GensContext) (w : World)
    (log : List (Path × List Nat)) (l : Path) (n : String) (data : List Nat)
    (hl : self.lua = some l) (habs : l.isAbsolute = false)
    (hread : w.readFile l = some data) (hn : l.fileName = some n) :
    gensStageLua h (self, w, log) = some (Except.ok ({ self with lua := some ⟨false, [n]⟩ },
      (copy_if_different h data (self.working_dir.push n) w).1,
      log ++ (copy_if_different h data (self.working_dir.push n) w).2)) := by
  have hf : w.isFile l = true := by unfold World.isFile; rw [hread]; rfl
  have habs' : ¬ l.isAbsolute = true := by rw [habs]; exact Bool.false_ne_true
  unfold gensStageLua
  dsimp only
  rw [hl]
  dsimp only
  rw [if_pos hf, if_neg habs', hn]
  dsimp only
  rw [hread]

/-- C6: for a Gens context whose attached rom, movie and lua paths refer to
existing regular files (each with a final path component), `prepare`
succeeds; the rom is unconditionally copied (copy-on-difference) into the
working directory under its file name and the stored rom field rewritten to
just that file name; movie and lua are each copied and rewritten only when
their original path is not absolute, and kept exactly as-is when it is. -/
theorem c6_gens_prepare_staging (h : HashFn) (w : World) (self : GensContext)
    (hrom : ∀ r, self.rom = some r → w.isFile r = true ∧ r.fileName.isSome = true)
    (hmov : ∀ m, self.movie = some m → w.isFile m = true ∧ m.fileName.isSome = true)
    (hlua : ∀ l, self.lua = some l → w.isFile l = true ∧ l.fileName.isSome = true) :
    ∃ c1 w1 g1 c2 w2 g2 c3 w3 g3,
      gensStageRom h (self, w, []) = some (Except.ok (c1, w1, g1)) ∧
      gensStageMovie h (c1, w1, g1) = some (Except.ok (c2, w2, g2)) ∧
      gensStageLua h (c2, w2, g2) = some (Except.ok (c3, w3, g3)) ∧
      self.prepare h w = some (Except.ok (c3, w3, g3)) ∧
      (self.rom = none → c1 = self ∧ w1 = w ∧ g1 = []) ∧
      (∀ r n, self.rom = some r → r.fileName = some n →
        c1 = { self with rom := some ⟨false, [n]⟩ } ∧
        w1 = (copy_if_different h ((w.readFile r).getD []) (self.working_dir.push n) w).1 ∧
        g1 = (copy_if_different h ((w.readFile r).getD []) (self.working_dir.push n) w).2) ∧
      (self.movie = none → c2 = c1 ∧ w2 = w1 ∧ g2 = g1) ∧
      (∀ m, self.movie = some m → m.isAbsolute = true →
        c2 = c1 ∧ w2 = w1 ∧ g2 = g1 ∧ c2.movie = some m) ∧
      (∀ m n, self.movie = some m → m.isAbsolute = false → m.fileName = some n →
        c2 = { c1 with movie := some ⟨false, [n]⟩ } ∧
        w2 = (copy_if_different h ((w1.readFile m).getD []) (c1.working_dir.push n) w1).1 ∧
        g2 = g1 ++ (copy_if_different h ((w1.readFile m).getD []) (c1.working_dir.push n) w1).2) ∧
      (self.lua = none → c3 = c2 ∧ w3 = w2 ∧ g3 = g2) ∧
      (∀ q, self.lua = some q → q.isAbsolute = true →
        c3 = c2 ∧ w3 = w2 ∧ g3 = g2 ∧ c3.lua = some q) ∧
      (∀ q n, self.lua = some q → q.isAbsolute = false → q.fileName = some n →
        c3 = { c2 with lua := some ⟨false, [n]⟩ } ∧
        w3 = (copy_if_different h ((w2.readFile q).getD []) (c2.working_dir.push n) w2).1 ∧
        g3 = g2 ++ (copy_if_different h ((w2.readFile q).getD []) (c2.working_dir.push n) w2).2) ∧
      c1.working_dir = self.working_dir ∧ c2.working_dir = self.working_dir ∧
      c3.working_dir = self.working_dir := by
  have H1 : ∃ c1 w1 g1,
      gensStageRom h (self, w, []) = some (Except.ok (c1, w1, g1)) ∧
      (self.rom = none → c1 = self ∧ w1 = w ∧ g1 = []) ∧
      (∀ r n, self.rom = some r → r.fileName = some n →
        c1 = { self with rom := some ⟨false, [n]⟩ } ∧
        w1 = (copy_if_different h ((w.readFile r).getD []) (self.working_dir.push n) w).1 ∧
        g1 = (copy_if_different h ((w.readFile r).getD []) (self.working_dir.push n) w).2) ∧
      c1.movie = self.movie ∧ c1.lua = self.lua ∧ c1.working_dir = self.working_dir ∧
      (∀ q, w.isFile q = true → w1.isFile q = true) := by
    cases hrc : self.rom with
    | none =>
      refine ⟨self, w, [], gensStageRom_none h self w [] hrc,
        fun _ => ⟨rfl, rfl, rfl⟩, ?_, rfl, rfl, rfl, fun q hq => hq⟩
      intro r n hr _
      exact Option.noConfusion hr
    | some r =>
      obtain ⟨hf, hns⟩ := hrom r hrc
      obtain ⟨n, hn⟩ := Option.isSome_iff_exists.mp hns
      obtain ⟨data, hdata⟩ := (World.isFile_true_iff w r).mp hf
      refine ⟨{ self with rom := some ⟨false, [n]⟩ },
        (copy_if_different h data (self.working_dir.push n) w).1,
        (copy_if_different h data (self.working_dir.push n) w).2,
        ?_, ?_, ?_, rfl, rfl, rfl, ?_⟩
      · have hs := gensStageRom_some h self w [] r n data hrc hdata hn
        rw [List.nil_append] at hs
        exact hs
      · intro h0
        exact Option.noConfusion h0
      · intro r' n' hr' hn'
        injection hr' with hr2
        subst hr2
        rw [hn] at hn'
        injection hn' with hn2
        subst hn2
        refine ⟨rfl, ?_, ?_⟩ <;> simp [hdata]
      · intro q hq
        exact copy_if_different_isFile_mono h data _ w q hq
  obtain ⟨c1, w1, g1, hs1, hrn, hrs, hc1m, hc1l, hc1wd, hmono1⟩ := H1
  have H2 : ∃ c2 w2 g2,
      gensStageMovie h (c1, w1, g1) = some (Except.ok (c2, w2, g2)) ∧
      (self.movie = none → c2 = c1 ∧ w2 = w1 ∧ g2 = g1) ∧
      (∀ m, self.movie = some m → m.isAbsolute = true →
        c2 = c1 ∧ w2 = w1 ∧ g2 = g1 ∧ c2.movie = some m) ∧
      (∀ m n, self.movie = some m → m.isAbsolute = false → m.fileName = some n →
        c2 = { c1 with movie := some ⟨false, [n]⟩ } ∧
        w2 = (copy_if_different h ((w1.readFile m).getD []) (c1.working_dir.push n) w1).1 ∧
        g2 = g1 ++ (copy_if_different h ((w1.readFile m).getD []) (c1.working_dir.push n) w1).2) ∧
      c2.lua = c1.lua ∧ c2.working_dir = c1.working_dir ∧
      (∀ q, w1.isFile q = true → w2.isFile q = true) := by
    cases hmc : self.movie with
    | none =>
      refine ⟨c1, w1, g1, gensStageMovie_none h c1 w1 g1 (hc1m.trans hmc),
        fun _ => ⟨rfl, rfl, rfl⟩, ?_, ?_, rfl, rfl, fun q hq => hq⟩
      · intro m hm _
        exact Option.noConfusion hm
      · intro m n hm _ _
        exact Option.noConfusion hm
    | some m =>
      obtain ⟨hf, hns⟩ := hmov m hmc
      have hf1 : w1.isFile m = true := hmono1 m hf
      obtain ⟨n, hn⟩ := Option.isSome_iff_exists.mp hns
      by_cases habs : m.isAbsolute = true
      · refine ⟨c1, w1, g1, gensStageMovie_abs h c1 w1 g1 m (hc1m.trans hmc) hf1 habs,
          ?_, fun m' hm' _ => ?_, ?_, rfl, rfl, fun q hq => hq⟩
        · intro h0
          exact Option.noConfusion h0
        · injection hm' with hm2
          subst hm2
          exact ⟨rfl, rfl, rfl, hc1m.trans hmc⟩
        · intro m' n' hm' habs' _
          injection hm' with hm2
          subst hm2
          rw [habs] at habs'
          cases habs'
      · have habs0 : m.isAbsolute = false := by
          cases hb : m.isAbsolute
          · rfl
          · exact absurd hb habs
        obtain ⟨data, hdata⟩ := (World.isFile_true_iff w1 m).mp hf1
        have hs := gensStageMovie_rel h c1 w1 g1 m n data (hc1m.trans hmc) habs0 hdata hn
        refine ⟨{ c1 with movie := some ⟨false, [n]⟩ },
          (copy_if_different h data (c1.working_dir.push n) w1).1,
          g1 ++ (copy_if_different h data (c1.working_dir.push n) w1).2,
          hs, ?_, ?_, ?_, rfl, rfl, ?_⟩
        · intro h0
          exact Option.noConfusion h0
        · intro m' hm' habs'
          injection hm' with hm2
          subst hm2
          rw [habs0] at habs'
          cases habs'
        · intro m' n' hm' _ hn'
          injection hm' with hm2
          subst hm2
          rw [hn] at hn'
          injection hn' with hn2
          subst hn2
          refine ⟨rfl, ?_, ?_⟩ <;> simp [hdata]
        · intro q hq
          exact copy_if_different_isFile_mono h data _ w1 q hq
  obtain ⟨c2, w2, g2, hs2, hmn, hma, hmr, hc2l, hc2wd, hmono2⟩ := H2
  have H3 : ∃ c3 w3 g3,
      gensStageLua h (c2, w2, g2) = some (Except.ok (c3, w3, g3)) ∧
      (self.lua = none → c3 = c2 ∧ w3 = w2 ∧ g3 = g2) ∧
      (∀ q, self.lua = some q → q.isAbsolute = true →
        c3 = c2 ∧ w3 = w2 ∧ g3 = g2 ∧ c3.lua = some q) ∧
      (∀ q n, self.lua = some q → q.isAbsolute = false → q.fileName = some n →
        c3 = { c2 with lua := some ⟨false, [n]⟩ } ∧
        w3 = (copy_if_different h ((w2.readFile q).getD []) (c2.working_dir.push n) w2).1 ∧
        g3 = g2 ++ (copy_if_different h ((w2.readFile q).getD []) (c2.working_dir.push n) w2).2) ∧
      c3.working_dir = c2.working_dir := by
    have hc2lua : c2.lua = self.lua := hc2l.trans hc1l
    cases hlc : self.lua with
    | none =>
      refine ⟨c2, w2, g2, gensStageLua_none h c2 w2 g2 (hc2lua.trans hlc),
        fun _ => ⟨rfl, rfl, rfl⟩, ?_, ?_, rfl⟩
      · intro q hq _
        exact Option.noConfusion hq
      · intro q n hq _ _
        exact Option.noConfusion hq
    | some q =>
      obtain ⟨hf, hns⟩ := hlua q hlc
      have hf2 : w2.isFile q = true := hmono2 q (hmono1 q hf)
      obtain ⟨n, hn⟩ := Option.isSome_iff_exists.mp hns
      by_cases habs : q.isAbsolute = true
      · refine ⟨c2, w2, g2, gensStageLua_abs h c2 w2 g2 q (hc2lua.trans hlc) hf2 habs,
          ?_, fun q' hq' _ => ?_, ?_, rfl⟩
        · intro h0
          exact Option.noConfusion h0
        · injection hq' with hq2
          subst hq2
          exact ⟨rfl, rfl, rfl, hc2lua.trans hlc⟩
        · intro q' n' hq' habs' _
          injection hq' with hq2
          subst hq2
          rw [habs] at habs'
          cases habs'
      · have habs0 : q.isAbsolute = false := by
          cases hb : q.isAbsolute
          · rfl
          · exact absurd hb habs
        obtain ⟨data, hdata⟩ := (World.isFile_true_iff w2 q).mp hf2
        have hs := gensStageLua_rel h c2 w2 g2 q n data (hc2lua.trans hlc) habs0 hdata hn
        refine ⟨{ c2 with lua := some ⟨false, [n]⟩ },
          (copy_if_different h data (c2.working_dir.push n) w2).1,
          g2 ++ (copy_if_different h data (c2.working_dir.push n) w2).2,
          hs, ?_, ?_, ?_, rfl⟩
        · intro h0
          exact Option.noConfusion h0
        · intro q' hq' habs'
          injection hq' with hq2
          subst hq2
          rw [habs0] at habs'
          cases habs'
        · intro q' n' hq' _ hn'
          injection hq' with hq2
          subst hq2
          rw [hn] at hn'
          injection hn' with hn2
          subst hn2
          refine ⟨rfl, ?_, ?_⟩ <;> simp [hdata]
  obtain ⟨c3, w3, g3, hs3, hln, hla, hlr, hc3wd⟩ := H3
  refine ⟨c1, w1, g1, c2, w2, g2, c3, w3, g3, hs1, hs2, hs3, ?_,
    hrn, hrs, hmn, hma, hmr, hln, hla, hlr, hc1wd, hc2wd.trans hc1wd,
    hc3wd.trans (hc2wd.trans hc1wd)⟩
  unfold GensContext.prepare
  rw [hs1, pstep_ok, hs2, pstep_ok, hs3]

theorem c6_gens_prepare_staging_witness :
    (∃ res,
      GensContext.prepare (fun l => if l = [] then "e" else "n")
        ⟨[(⟨true, ["d", "game.bin"]⟩, [7]), (⟨true, ["d", "mov"]⟩, [8]),
          (⟨true, ["h", "x.lua"]⟩, [9])], [], ⟨true, ["h"]⟩⟩
        ⟨GensVersion.Ver11A, false, some ⟨true, ["d", "game.bin"]⟩,
          some ⟨true, ["d", "mov"]⟩, some ⟨false, ["x.lua"]⟩, ⟨true, ["g"]⟩⟩
        = some (Except.ok res)) ∧
    GensContext.prepare (fun l => if l = [] then "e" else "n")
        ⟨[(⟨true, ["d", "game.bin"]⟩, [7]), (⟨true, ["d", "mov"]⟩, [8]),
          (⟨true, ["h", "x.lua"]⟩, [9])], [], ⟨true, ["h"]⟩⟩
        ⟨GensVersion.Ver11A, false, some ⟨true, ["d", "game.bin"]⟩,
          some ⟨true, ["d", "mov"]⟩, some ⟨false, ["x.lua"]⟩, ⟨true, ["g"]⟩⟩
      = some (Except.ok
          (⟨GensVersion.Ver11A, false, some ⟨false, ["game.bin"]⟩,
            some ⟨true, ["d", "mov"]⟩, some ⟨false, ["x.lua"]⟩, ⟨true, ["g"]⟩⟩,
           ⟨[(⟨true, ["g", "x.lua"]⟩, [9]), (⟨true, ["g", "game.bin"]⟩, [7]),
             (⟨true, ["d", "game.bin"]⟩, [7]), (⟨true, ["d", "mov"]⟩, [8]),
             (⟨true, ["h", "x.lua"]⟩, [9])], [], ⟨true, ["h"]⟩⟩,
           [(⟨true, ["g", "game.bin"]⟩, [7]), (⟨true, ["g", "x.lua"]⟩, [9])])) := by
  constructor
  · obtain ⟨c1, w1, g1, c2, w2, g2, c3, w3, g3, _, _, _, hp, _⟩ :=
      c6_gens_prepare_staging (fun l => if l = [] then "e" else "n")
        ⟨[(⟨true, ["d", "game.bin"]⟩, [7]), (⟨true, ["d", "mov"]⟩, [8]),
          (⟨true, ["h", "x.lua"]⟩, [9])], [], ⟨true, ["h"]⟩⟩
        ⟨GensVersion.Ver11A, false, some ⟨true, ["d", "game.bin"]⟩,
          some ⟨true, ["d", "mov"]⟩, some ⟨false, ["x.lua"]⟩, ⟨true, ["g"]⟩⟩
        (by decide) (by decide) (by decide)
    exact ⟨_, hp⟩
  · decide

/- Helper lemmas for re-preparation. -/

theorem World.readFile_createDirAll (w : World) (p q : Path) :
    (w.createDirAll p).readFile q = w.readFile q := rfl

theorem World.isFile_createDirAll (w : World) (p q : Path) :
    (w.createDirAll p).isFile q = w.isFile q := rfl

theorem World.cwd_createDirAll (w : World) (p : Path) :
    (w.createDirAll p).cwd = w.cwd := rfl

theorem World.isDir_createDirAll_self (w : World) (p : Path) :
    (w.createDirAll p).isDir p = true := by
  unfold World.isDir World.createDirAll
  simp [World.resolve]

theorem World.isDir_writeFile (w : World) (p : Path) (d : List Nat) (q : Path) :
    (w.writeFile p d).isDir q = w.isDir q := rfl

theorem copy_if_different_isDir (h : HashFn) (data : List Nat) (dest : Path) (w : World)
    (q : Path) : ((copy_if_different h data dest w).1).isDir q = w.isDir q := by
  rcases copy_if_different_world_cases h data dest w with hc | hc <;> rw [hc]
  rfl

theorem World.resolve_push (w : World) (base : Path) (s : String) :
    w.resolve (base.push s) = ⟨(w.resolve base).absolute, (w.resolve base).components ++ [s]⟩ := by
  unfold World.resolve Path.push
  cases hb : base.absolute with
  | true => simp [hb]
  | false => simp [hb]

theorem World.resolve_push_ne (w : World) (base : Path) (a b : String) (hab : a ≠ b) :
    w.resolve (base.push a) ≠ w.resolve (base.push b) := by
  rw [World.resolve_push, World.resolve_push]
  intro hc
  injection hc with _ hcomp
  exact hab (by simpa using List.append_cancel_left hcomp)

theorem copy_if_different_readFile_ne (h : HashFn) (data : List Nat) (dest : Path)
    (w : World) (q : Path) (hq : w.resolve q ≠ w.resolve dest) :
    ((copy_if_different h data dest w).1).readFile q = w.readFile q := by
  rcases copy_if_different_world_cases h data dest w with hc | hc <;> rw [hc]
  exact World.readFile_writeFile_ne w dest data q hq

theorem copy_skip_of_hash (h : HashFn) (data : List Nat) (dest : Path) (w : World)
    (y : List Nat) (hy : w.readFile dest = some y) (hh : h data = h y) :
    copy_if_different h data dest w = (w, []) := by
  unfold copy_if_different
  rw [hy]
  dsimp only
  rw [if_pos hh]

theorem copy_dest_hash (h : HashFn) (data : List Nat) (dest : Path) (w : World) :
    ∃ y, ((copy_if_different h data dest w).1).readFile dest = some y ∧ h data = h y := by
  unfold copy_if_different
  cases hr : w.readFile dest with
  | some old =>
    dsimp only
    by_cases he : h data = h old
    · rw [if_pos he]
      exact ⟨old, hr, he⟩
    · rw [if_neg he]
      exact ⟨data, World.readFile_writeFile_self w dest data, rfl⟩
  | none =>
    exact ⟨data, World.readFile_writeFile_self w dest data, rfl⟩

theorem copy_if_different_idem (h : HashFn) (data : List Nat) (dest : Path) (w : World) :
    copy_if_different h data dest (copy_if_different h data dest w).1
      = ((copy_if_different h data dest w).1, []) := by
  obtain ⟨y, hy, hh⟩ := copy_dest_hash h data dest w
  exact copy_skip_of_hash h data dest _ y hy hh

theorem fieldPasses_mono (w w2 : World) (o : Option Path)
    (hmono : ∀ q, w.isFile q = true → w2.isFile q = true)
    (hp : fieldPassesCheck w o = true) : fieldPassesCheck w2 o = true := by
  match o with
  | none => rfl
  | some q =>
    simp only [fieldPassesCheck, Bool.and_eq_true] at hp ⊢
    exact ⟨hmono q hp.1, hp.2⟩

theorem checkField_none_mono (w w2 : World) (o : Option Path) (mk : Path → Error)
    (hmono : ∀ q, w.isFile q = true → w2.isFile q = true)
    (hc : checkField w o mk = none) : checkField w2 o mk = none :=
  checkField_none_of_passes w2 o mk
    (fieldPasses_mono w w2 o hmono (passes_of_checkField_none w o mk hc))

theorem World.isFile_eq_of_readFile_eq (w w2 : World) (q : Path)
    (hq : w2.readFile q = w.readFile q) : w2.isFile q = w.isFile q := by
  unfold World.isFile
  rw [hq]

theorem fceux_det_eq (w w2 : World) (self : FceuxContext)
    (h1 : w2.isFile (self.working_dir.push "fceux") = w.isFile (self.working_dir.push "fceux"))
    (h2 : w2.isFile (self.working_dir.push "fceux.exe")
        = w.isFile (self.working_dir.push "fceux.exe"))
    (h3 : w2.isFile (self.working_dir.push "fceux64.exe")
        = w.isFile (self.working_dir.push "fceux64.exe"))
    (h4 : w2.isFile (self.working_dir.push "qfceux.exe")
        = w.isFile (self.working_dir.push "qfceux.exe")) :
    self.determine_executable w2 = self.determine_executable w := by
  unfold FceuxContext.determine_executable
  rw [h1, h2, h3, h4]

theorem bizhawk_prepare_idem (h : HashFn) (d p : List Nat) (w : World)
    (self c' : BizHawkContext) (w' : World) (log : List (Path × List Nat))
    (hp : self.prepare h d p w = some (Except.ok (c', w', log))) :
    c' = self ∧ c'.prepare h d p w' = some (Except.ok (c', w', [])) := by
  cases hcfg : checkField w self.config Error.MissingConfig with
  | some e => rw [bizhawk_prepare_cfg_err h d p w self e hcfg] at hp; simp at hp
  | none =>
  cases hmov : checkField w self.movie Error.MissingMovie with
  | some e => rw [bizhawk_prepare_mov_err h d p w self e hcfg hmov] at hp; simp at hp
  | none =>
  cases hlua : checkField w self.lua Error.MissingLua with
  | some e => rw [bizhawk_prepare_lua_err h d p w self e hcfg hmov hlua] at hp; simp at hp
  | none =>
  cases hrom : checkField w self.rom Error.MissingRom with
  | some e => rw [bizhawk_prepare_rom_err h d p w self e hcfg hmov hlua hrom] at hp; simp at hp
  | none =>
  rw [bizhawk_prepare_fields_ok h d p w self hcfg hmov hlua hrom] at hp
  cases hdet : self.detect_version h w with
  | none => rw [hdet] at hp; simp [bizhawkVersionBranch] at hp
  | some vo =>
    rw [hdet] at hp
    have hcore : ∀ payload : List Nat,
        (∀ w0 : World, bizhawkVersionBranch h d p w0 self (some vo)
          = some (Except.ok (self,
              (copy_if_different h payload (self.working_dir.push "start-bizhawk.sh") w0).1,
              (copy_if_different h payload (self.working_dir.push "start-bizhawk.sh") w0).2))) →
        c' = self ∧ c'.prepare h d p w' = some (Except.ok (c', w', [])) := by
      intro payload hbr
      rw [hbr w] at hp
      simp only [Option.some.injEq, Except.ok.injEq, Prod.mk.injEq] at hp
      obtain ⟨hc, hw, -⟩ := hp
      subst hc
      subst hw
      refine ⟨rfl, ?_⟩
      have hmono : ∀ q, w.isFile q = true →
          ((copy_if_different h payload (self.working_dir.push "start-bizhawk.sh") w).1).isFile q
            = true :=
        fun q hq => copy_if_different_isFile_mono h payload _ w q hq
      rw [bizhawk_prepare_fields_ok h d p _ self
        (checkField_none_mono w _ _ _ hmono hcfg)
        (checkField_none_mono w _ _ _ hmono hmov)
        (checkField_none_mono w _ _ _ hmono hlua)
        (checkField_none_mono w _ _ _ hmono hrom)]
      have hdet2 : self.detect_version h
          ((copy_if_different h payload (self.working_dir.push "start-bizhawk.sh") w).1)
            = some vo := by
        unfold BizHawkContext.detect_version at hdet ⊢
        rw [copy_if_different_readFile_ne h payload _ w _
          (World.resolve_push_ne w self.working_dir "EmuHawk.exe" "start-bizhawk.sh"
            (by decide))]
        exact hdet
      rw [hdet2, hbr _, copy_if_different_idem]
    cases vo with
    | none =>
      exact hcore d (fun w0 => by rw [bizhawkVersionBranch])
    | some v =>
      by_cases hleg : v ∈ bizhawkLegacySet
      · exact hcore p (fun w0 => by rw [bizhawkVersionBranch, if_pos hleg])
      · by_cases hv : v ∈ bizhawkUnsupportedSet
        · rw [bizhawkVersionBranch, if_neg hleg, if_pos hv] at hp
          simp at hp
        · exact hcore d (fun w0 => by rw [bizhawkVersionBranch, if_neg hleg, if_neg hv])

theorem World.resolve_eq_of_cwd_eq (w w2 : World) (q : Path) (hc : w2.cwd = w.cwd) :
    w2.resolve q = w.resolve q := by
  unfold World.resolve
  rw [hc]

theorem World.readFile_congr (w : World) (q q' : Path) (hq : w.resolve q = w.resolve q') :
    w.readFile q = w.readFile q' := by
  unfold World.readFile
  rw [hq]

theorem resolve_push_push_ne_push (w : World) (base : Path) (a b c : String) :
    w.resolve ((base.push a).push b) ≠ w.resolve (base.push c) := by
  rw [World.resolve_push, World.resolve_push, World.resolve_push]
  intro hc
  injection hc with _ h2
  have hlen := congrArg List.length h2
  simp [List.length_append] at hlen

theorem fceux_configStep_idem (h : HashFn) (w : World) (self : FceuxContext)
    (w1 : World) (lg : List (Path × List Nat))
    (hcs : self.configStep h w = Except.ok (w1, lg)) :
    self.configStep h w1 = Except.ok (w1, []) := by
  cases hc : self.config with
  | none =>
    unfold FceuxContext.configStep
    rw [hc]
  | some config =>
    unfold FceuxContext.configStep at hcs
    rw [hc] at hcs
    dsimp only at hcs
    by_cases hf : w.isFile config = true
    case neg =>
      rw [if_neg hf] at hcs
      cases hcs
    case pos =>
      rw [if_pos hf] at hcs
      cases hdt : self.determine_executable w with
      | none =>
        rw [hdt] at hcs
        simp only [Except.ok.injEq, Prod.mk.injEq] at hcs
        obtain ⟨hw1, -⟩ := hcs
        subst hw1
        unfold FceuxContext.configStep
        rw [hc]
        dsimp only
        rw [if_pos hf, hdt]
      | some exe =>
        rw [hdt] at hcs
        dsimp only at hcs
        obtain ⟨data0, hdata0⟩ := (World.isFile_true_iff w config).mp hf
        by_cases he1 : exe = "fceux"
        · subst he1
          rw [if_pos rfl] at hcs
          have hread1 : (if w.isDir (self.working_dir.push ".fceux") = true then w
              else w.createDirAll (self.working_dir.push ".fceux")).readFile config
                = some data0 := by
            by_cases hdir : w.isDir (self.working_dir.push ".fceux") = true
            · rw [if_pos hdir]; exact hdata0
            · rw [if_neg hdir]; exact hdata0
          rw [hread1] at hcs
          dsimp only at hcs
          simp only [Except.ok.injEq, Prod.mk.injEq] at hcs
          obtain ⟨hw1, -⟩ := hcs
          subst hw1
          -- facts about the intermediate world and the staged world
          have hIte_read : ∀ q, (if w.isDir (self.working_dir.push ".fceux") = true then w
              else w.createDirAll (self.working_dir.push ".fceux")).readFile q
                = w.readFile q := by
            intro q
            by_cases hdir : w.isDir (self.working_dir.push ".fceux") = true
            · rw [if_pos hdir]
            · rw [if_neg hdir]; rfl
          have hIte_cwd : (if w.isDir (self.working_dir.push ".fceux") = true then w
              else w.createDirAll (self.working_dir.push ".fceux")).cwd = w.cwd := by
            by_cases hdir : w.isDir (self.working_dir.push ".fceux") = true
            · rw [if_pos hdir]
            · rw [if_neg hdir]; rfl
          have hW1_cwd : ((copy_if_different h data0
              ((self.working_dir.push ".fceux").push "fceux.cfg")
              (if w.isDir (self.working_dir.push ".fceux") = true then w
                else w.createDirAll (self.working_dir.push ".fceux"))).1).cwd = w.cwd :=
            (copy_if_different_cwd h data0 _ _).trans hIte_cwd
          have hW1_frame : ∀ q, w.resolve q
                ≠ w.resolve ((self.working_dir.push ".fceux").push "fceux.cfg") →
              ((copy_if_different h data0
                ((self.working_dir.push ".fceux").push "fceux.cfg")
                (if w.isDir (self.working_dir.push ".fceux") = true then w
                  else w.createDirAll (self.working_dir.push ".fceux"))).1).readFile q
                = w.readFile q := by
            intro q hq
            have hq2 : (if w.isDir (self.working_dir.push ".fceux") = true then w
                else w.createDirAll (self.working_dir.push ".fceux")).resolve q
                  ≠ (if w.isDir (self.working_dir.push ".fceux") = true then w
                else w.createDirAll (self.working_dir.push ".fceux")).resolve
                  ((self.working_dir.push ".fceux").push "fceux.cfg") := by
              rw [World.resolve_eq_of_cwd_eq _ _ _ hIte_cwd,
                World.resolve_eq_of_cwd_eq _ _ _ hIte_cwd]
              exact hq
            rw [copy_if_different_readFile_ne h data0 _ _ q hq2, hIte_read q]
          obtain ⟨y, hWdd, hhy⟩ := copy_dest_hash h data0
            ((self.working_dir.push ".fceux").push "fceux.cfg")
            (if w.isDir (self.working_dir.push ".fceux") = true then w
              else w.createDirAll (self.working_dir.push ".fceux"))
          -- the staged world still holds the config file
          have hfile1 : ((copy_if_different h data0
              ((self.working_dir.push ".fceux").push "fceux.cfg")
              (if w.isDir (self.working_dir.push ".fceux") = true then w
                else w.createDirAll (self.working_dir.push ".fceux"))).1).isFile config
                = true := by
            refine copy_if_different_isFile_mono h data0 _ _ config ?_
            rw [World.isFile_eq_of_readFile_eq w _ config (hIte_read config)]
            exact hf
          -- the detected executable is unchanged
          have hdet2 : self.determine_executable ((copy_if_different h data0
              ((self.working_dir.push ".fceux").push "fceux.cfg")
              (if w.isDir (self.working_dir.push ".fceux") = true then w
                else w.createDirAll (self.working_dir.push ".fceux"))).1)
                = some "fceux" := by
            rw [fceux_det_eq w _ self
              (World.isFile_eq_of_readFile_eq w _ _
                (hW1_frame _ (Ne.symm (resolve_push_push_ne_push w self.working_dir
                  ".fceux" "fceux.cfg" "fceux"))))
              (World.isFile_eq_of_readFile_eq w _ _
                (hW1_frame _ (Ne.symm (resolve_push_push_ne_push w self.working_dir
                  ".fceux" "fceux.cfg" "fceux.exe"))))
              (World.isFile_eq_of_readFile_eq w _ _
                (hW1_frame _ (Ne.symm (resolve_push_push_ne_push w self.working_dir
                  ".fceux" "fceux.cfg" "fceux64.exe"))))
              (World.isFile_eq_of_readFile_eq w _ _
                (hW1_frame _ (Ne.symm (resolve_push_push_ne_push w self.working_dir
                  ".fceux" "fceux.cfg" "qfceux.exe"))))]
            exact hdt
          -- the .fceux directory now exists
          have hdir1 : ((copy_if_different h data0
              ((self.working_dir.push ".fceux").push "fceux.cfg")
              (if w.isDir (self.working_dir.push ".fceux") = true then w
                else w.createDirAll (self.working_dir.push ".fceux"))).1).isDir
                (self.working_dir.push ".fceux") = true := by
            rw [copy_if_different_isDir]
            by_cases hdir : w.isDir (self.working_dir.push ".fceux") = true
            · rw [if_pos hdir]; exact hdir
            · rw [if_neg hdir]; exact World.isDir_createDirAll_self w _
          -- second run
          unfold FceuxContext.configStep
          rw [hc]
          dsimp only
          rw [if_pos hfile1, hdet2]
          dsimp only
          rw [if_pos rfl, if_pos hdir1]
          by_cases hre : w.resolve config
              = w.resolve ((self.working_dir.push ".fceux").push "fceux.cfg")
          · have hread2 : ((copy_if_different h data0
                ((self.working_dir.push ".fceux").push "fceux.cfg")
                (if w.isDir (self.working_dir.push ".fceux") = true then w
                  else w.createDirAll (self.working_dir.push ".fceux"))).1).readFile config
                  = some y := by
              rw [World.readFile_congr _ config
                ((self.working_dir.push ".fceux").push "fceux.cfg")
                (by rw [World.resolve_eq_of_cwd_eq _ _ _ hW1_cwd,
                  World.resolve_eq_of_cwd_eq _ _ _ hW1_cwd]; exact hre)]
              exact hWdd
            rw [hread2]
            dsimp only
            rw [copy_skip_of_hash h y _ _ y hWdd rfl]
          · have hread2 : ((copy_if_different h data0
                ((self.working_dir.push ".fceux").push "fceux.cfg")
                (if w.isDir (self.working_dir.push ".fceux") = true then w
                  else w.createDirAll (self.working_dir.push ".fceux"))).1).readFile config
                  = some data0 := by
              rw [hW1_frame config hre]
              exact hdata0
            rw [hread2]
            dsimp only
            rw [copy_skip_of_hash h data0 _ _ y hWdd hhy]
        · rw [if_neg he1] at hcs
          by_cases he2 : exe = "qfceux.exe"
          · subst he2
            rw [if_pos rfl] at hcs
            rw [hdata0] at hcs
            dsimp only at hcs
            simp only [Except.ok.injEq, Prod.mk.injEq] at hcs
            obtain ⟨hw1, -⟩ := hcs
            subst hw1
            have hW1_frame : ∀ q, w.resolve q
                  ≠ w.resolve (self.working_dir.push "fceux.cfg") →
                ((copy_if_different h data0 (self.working_dir.push "fceux.cfg") w).1).readFile q
                  = w.readFile q :=
              fun q hq => copy_if_different_readFile_ne h data0 _ w q hq
            obtain ⟨y, hWdd, hhy⟩ := copy_dest_hash h data0
              (self.working_dir.push "fceux.cfg") w
            have hW1_cwd : ((copy_if_different h data0
                (self.working_dir.push "fceux.cfg") w).1).cwd = w.cwd :=
              copy_if_different_cwd h data0 _ w
            have hfile1 : ((copy_if_different h data0
                (self.working_dir.push "fceux.cfg") w).1).isFile config = true :=
              copy_if_different_isFile_mono h data0 _ w config hf
            have hdet2 : self.determine_executable ((copy_if_different h data0
                (self.working_dir.push "fceux.cfg") w).1) = some "qfceux.exe" := by
              rw [fceux_det_eq w _ self
                (World.isFile_eq_of_readFile_eq w _ _
                  (hW1_frame _ (World.resolve_push_ne w self.working_dir
                    "fceux" "fceux.cfg" (by decide))))
                (World.isFile_eq_of_readFile_eq w _ _
                  (hW1_frame _ (World.resolve_push_ne w self.working_dir
                    "fceux.exe" "fceux.cfg" (by decide))))
                (World.isFile_eq_of_readFile_eq w _ _
                  (hW1_frame _ (World.resolve_push_ne w self.working_dir
                    "fceux64.exe" "fceux.cfg" (by decide))))
                (World.isFile_eq_of_readFile_eq w _ _
                  (hW1_frame _ (World.resolve_push_ne w self.working_dir
                    "qfceux.exe" "fceux.cfg" (by decide))))]
              exact hdt
            unfold FceuxContext.configStep
            rw [hc]
            dsimp only
            rw [if_pos hfile1, hdet2]
            dsimp only
            rw [if_neg (by decide : ¬ ("qfceux.exe" : String) = "fceux"), if_pos rfl]
            by_cases hre : w.resolve config = w.resolve (self.working_dir.push "fceux.cfg")
            · have hread2 : ((copy_if_different h data0
                  (self.working_dir.push "fceux.cfg") w).1).readFile config = some y := by
                rw [World.readFile_congr _ config (self.working_dir.push "fceux.cfg")
                  (by rw [World.resolve_eq_of_cwd_eq _ _ _ hW1_cwd,
                    World.resolve_eq_of_cwd_eq _ _ _ hW1_cwd]; exact hre)]
                exact hWdd
              rw [hread2]
              dsimp only
              rw [copy_skip_of_hash h y _ _ y hWdd rfl]
            · have hread2 : ((copy_if_different h data0
                  (self.working_dir.push "fceux.cfg") w).1).readFile config = some data0 := by
                rw [hW1_frame config hre]
                exact hdata0
              rw [hread2]
              dsimp only
              rw [copy_skip_of_hash h data0 _ _ y hWdd hhy]
          · rw [if_neg he2] at hcs
            by_cases habs : config.isAbsolute = true
            case neg =>
              rw [if_neg habs] at hcs
              cases hcs
            case pos =>
              rw [if_pos habs] at hcs
              simp only [Except.ok.injEq, Prod.mk.injEq] at hcs
              obtain ⟨hw1, -⟩ := hcs
              subst hw1
              unfold FceuxContext.configStep
              rw [hc]
              dsimp only
              rw [if_pos hf, hdt]
              dsimp only
              rw [if_neg he1, if_neg he2, if_pos habs]

theorem fceux_prepare_idem (h : HashFn) (w : World) (self c' : FceuxContext)
    (w' : World) (log : List (Path × List Nat))
    (hp : self.prepare h w = Except.ok (c', w', log)) :
    c' = self ∧ c'.prepare h w' = Except.ok (c', w', []) := by
  cases hcs : self.configStep h w with
  | error e => rw [fceux_prepare_cfg_err h w self e hcs] at hp; cases hp
  | ok pr =>
    obtain ⟨w1, lg⟩ := pr
    cases hmov : checkField w1 self.movie Error.MissingMovie with
    | some e => rw [fceux_prepare_mov_err h w self w1 lg e hcs hmov] at hp; cases hp
    | none =>
    cases hlua : checkField w1 self.lua Error.MissingLua with
    | some e => rw [fceux_prepare_lua_err h w self w1 lg e hcs hmov hlua] at hp; cases hp
    | none =>
    cases hrom : checkField w1 self.rom Error.MissingRom with
    | some e => rw [fceux_prepare_rom_err h w self w1 lg e hcs hmov hlua hrom] at hp; cases hp
    | none =>
    rw [fceux_prepare_all_ok h w self w1 lg hcs hmov hlua hrom] at hp
    simp only [Except.ok.injEq, Prod.mk.injEq] at hp
    obtain ⟨hc, hw, -⟩ := hp
    subst hc
    subst hw
    exact ⟨rfl, fceux_prepare_all_ok h w1 self w1 []
      (fceux_configStep_idem h w self w1 lg hcs) hmov hlua hrom⟩

theorem pstep_ok_inv {α β : Type} (x : Option (Except Error α))
    (f : α → Option (Except Error β)) (b : β)
    (hx : pstep x f = some (Except.ok b)) :
    ∃ a, x = some (Except.ok a) ∧ f a = some (Except.ok b) := by
  cases x with
  | none => simp [pstep] at hx
  | some e =>
    cases e with
    | error er => simp [pstep] at hx
    | ok a => exact ⟨a, rfl, hx⟩

theorem gensStageRom_inv (h : HashFn) (self : GensContext) (w : World)
    (log : List (Path × List Nat)) (c1 : GensContext) (w1 : World)
    (g1 : List (Path × List Nat))
    (hs : gensStageRom h (self, w, log) = some (Except.ok (c1, w1, g1))) :
    (self.rom = none ∧ c1 = self ∧ w1 = w ∧ g1 = log) ∨
    (∃ r n data, self.rom = some r ∧ w.readFile r = some data ∧ r.fileName = some n ∧
      c1 = { self with rom := some ⟨false, [n]⟩ } ∧
      w1 = (copy_if_different h data (self.working_dir.push n) w).1 ∧
      g1 = log ++ (copy_if_different h data (self.working_dir.push n) w).2) := by
  unfold gensStageRom at hs
  dsimp only at hs
  cases hr : self.rom with
  | none =>
    rw [hr] at hs
    simp only [Option.some.injEq, Except.ok.injEq, Prod.mk.injEq] at hs
    exact Or.inl ⟨rfl, hs.1.symm, hs.2.1.symm, hs.2.2.symm⟩
  | some r =>
    rw [hr] at hs
    dsimp only at hs
    by_cases hf : w.isFile r = true
    · rw [if_pos hf] at hs
      cases hn : r.fileName with
      | none => rw [hn] at hs; simp at hs
      | some n =>
        rw [hn] at hs
        dsimp only at hs
        cases hd : w.readFile r with
        | none => rw [hd] at hs; simp at hs
        | some data =>
          rw [hd] at hs
          dsimp only at hs
          simp only [Option.some.injEq, Except.ok.injEq, Prod.mk.injEq] at hs
          exact Or.inr ⟨r, n, data, rfl, hd, hn, hs.1.symm, hs.2.1.symm, hs.2.2.symm⟩
    · rw [if_neg hf] at hs
      simp at hs

theorem gensStageMovie_inv (h : HashFn) (self : GensContext) (w : World)
    (log : List (Path × List Nat)) (c2 : GensContext) (w2 : World)
    (g2 : List (Path × List Nat))
    (hs : gensStageMovie h (self, w, log) = some (Except.ok (c2, w2, g2))) :
    (self.movie = none ∧ c2 = self ∧ w2 = w ∧ g2 = log) ∨
    (∃ m, self.movie = some m ∧ w.isFile m = true ∧ m.isAbsolute = true ∧
      c2 = self ∧ w2 = w ∧ g2 = log) ∨
    (∃ m n data, self.movie = some m ∧ m.isAbsolute = false ∧
      w.readFile m = some data ∧ m.fileName = some n ∧
      c2 = { self with movie := some ⟨false, [n]⟩ } ∧
      w2 = (copy_if_different h data (self.working_dir.push n) w).1 ∧
      g2 = log ++ (copy_if_different h data (self.working_dir.push n) w).2) := by
  unfold gensStageMovie at hs
  dsimp only at hs
  cases hm : self.movie with
  | none =>
    rw [hm] at hs
    simp only [Option.some.injEq, Except.ok.injEq, Prod.mk.injEq] at hs
    exact Or.inl ⟨rfl, hs.1.symm, hs.2.1.symm, hs.2.2.symm⟩
  | some m =>
    rw [hm] at hs
    dsimp only at hs
    by_cases hf : w.isFile m = true
    · rw [if_pos hf] at hs
      by_cases hab : m.isAbsolute = true
      · rw [if_pos hab] at hs
        simp only [Option.some.injEq, Except.ok.injEq, Prod.mk.injEq] at hs
        exact Or.inr (Or.inl ⟨m, rfl, hf, hab, hs.1.symm, hs.2.1.symm, hs.2.2.symm⟩)
      · rw [if_neg hab] at hs
        have hab0 : m.isAbsolute = false := by
          cases hb : m.isAbsolute
          · rfl
          · exact absurd hb hab
        cases hn : m.fileName with
        | none => rw [hn] at hs; simp at hs
        | some n =>
          rw [hn] at hs
          dsimp only at hs
          cases hd : w.readFile m with
          | none => rw [hd] at hs; simp at hs
          | some data =>
            rw [hd] at hs
            dsimp only at hs
            simp only [Option.some.injEq, Except.ok.injEq, Prod.mk.injEq] at hs
            exact Or.inr (Or.inr ⟨m, n, data, rfl, hab0, hd, hn,
              hs.1.symm, hs.2.1.symm, hs.2.2.symm⟩)
    · rw [if_neg hf] at hs
      simp at hs

theorem gensStageLua_inv (h : HashFn) (self : GensContext) (w : World)
    (log : List (Path × List Nat)) (c3 : GensContext) (w3 : World)
    (g3 : List (Path × List Nat))
    (hs : gensStageLua h (self, w, log) = some (Except.ok (c3, w3, g3))) :
    (self.lua = none ∧ c3 = self ∧ w3 = w ∧ g3 = log) ∨
    (∃ l, self.lua = some l ∧ w.isFile l = true ∧ l.isAbsolute = true ∧
      c3 = self ∧ w3 = w ∧ g3 = log) ∨
    (∃ l n data, self.lua = some l ∧ l.isAbsolute = false ∧
      w.readFile l = some data ∧ l.fileName = some n ∧
      c3 = { self with lua := some ⟨false, [n]⟩ } ∧
      w3 = (copy_if_different h data (self.working_dir.push n) w).1 ∧
      g3 = log ++ (copy_if_different h data (self.working_dir.push n) w).2) := by
  unfold gensStageLua at hs
  dsimp only at hs
  cases hm : self.lua with
  | none =>
    rw [hm] at hs
    simp only [Option.some.injEq, Except.ok.injEq, Prod.mk.injEq] at hs
    exact Or.inl ⟨rfl, hs.1.symm, hs.2.1.symm, hs.2.2.symm⟩
  | some l =>
    rw [hm] at hs
    dsimp only at hs
    by_cases hf : w.isFile l = true
    · rw [if_pos hf] at hs
      by_cases hab : l.isAbsolute = true
      · rw [if_pos hab] at hs
        simp only [Option.some.injEq, Except.ok.injEq, Prod.mk.injEq] at hs
        exact Or.inr (Or.inl ⟨l, rfl, hf, hab, hs.1.symm, hs.2.1.symm, hs.2.2.symm⟩)
      · rw [if_neg hab] at hs
        have hab0 : l.isAbsolute = false := by
          cases hb : l.isAbsolute
          · rfl
          · exact absurd hb hab
        cases hn : l.fileName with
        | none => rw [hn] at hs; simp at hs
        | some n =>
          rw [hn] at hs
          dsimp only at hs
          cases hd : w.readFile l with
          | none => rw [hd] at hs; simp at hs
          | some data =>
            rw [hd] at hs
            dsimp only at hs
            simp only [Option.some.injEq, Except.ok.injEq, Prod.mk.injEq] at hs
            exact Or.inr (Or.inr ⟨l, n, data, rfl, hab0, hd, hn,
              hs.1.symm, hs.2.1.symm, hs.2.2.symm⟩)
    · rw [if_neg hf] at hs
      simp at hs

/- Second-run stage lemmas: a stage whose field was rewritten to a bare file
name re-resolves it (via the process cwd, assumed to be the absolute working
directory) to the staged file, copies its content onto itself and therefore
writes nothing. -/

theorem gens_resolve_bare (wF : World) (wd : Path) (n : String)
    (hcwd : wF.cwd = wd) (habs : wd.absolute = true) :
    wF.resolve ⟨false, [n]⟩ = wF.resolve (wd.push n) := by
  rw [World.resolve_push]
  unfold World.resolve
  rw [hcwd]
  simp [habs]

theorem gens_second_rom (h : HashFn) (c : GensContext) (wF : World) (n : String)
    (y : List Nat) (hrom : c.rom = some ⟨false, [n]⟩)
    (hcwd : wF.cwd = c.working_dir) (habs : c.working_dir.absolute = true)
    (hy : wF.readFile (c.working_dir.push n) = some y) :
    gensStageRom h (c, wF, []) = some (Except.ok (c, wF, [])) := by
  have hread : wF.readFile ⟨false, [n]⟩ = some y := by
    rw [World.readFile_congr wF _ _ (gens_resolve_bare wF c.working_dir n hcwd habs)]
    exact hy
  have hstage := gensStageRom_some h c wF [] ⟨false, [n]⟩ n y hrom hread rfl
  rw [copy_skip_of_hash h y (c.working_dir.push n) wF y hy rfl] at hstage
  have hceq : { c with rom := some ⟨false, [n]⟩ } = c := by
    rw [← hrom]
  rw [hceq] at hstage
  exact hstage

theorem gens_second_movie_rel (h : HashFn) (c : GensContext) (wF : World) (n : String)
    (y : List Nat) (hmov : c.movie = some ⟨false, [n]⟩)
    (hcwd : wF.cwd = c.working_dir) (habs : c.working_dir.absolute = true)
    (hy : wF.readFile (c.working_dir.push n) = some y) :
    gensStageMovie h (c, wF, []) = some (Except.ok (c, wF, [])) := by
  have hread : wF.readFile ⟨false, [n]⟩ = some y := by
    rw [World.readFile_congr wF _ _ (gens_resolve_bare wF c.working_dir n hcwd habs)]
    exact hy
  have hstage := gensStageMovie_rel h c wF [] ⟨false, [n]⟩ n y hmov rfl hread rfl
  rw [copy_skip_of_hash h y (c.working_dir.push n) wF y hy rfl] at hstage
  have hceq : { c with movie := some ⟨false, [n]⟩ } = c := by
    rw [← hmov]
  rw [hceq] at hstage
  exact hstage

theorem gens_second_lua_rel (h : HashFn) (c : GensContext) (wF : World) (n : String)
    (y : List Nat) (hlua : c.lua = some ⟨false, [n]⟩)
    (hcwd : wF.cwd = c.working_dir) (habs : c.working_dir.absolute = true)
    (hy : wF.readFile (c.working_dir.push n) = some y) :
    gensStageLua h (c, wF, []) = some (Except.ok (c, wF, [])) := by
  have hread : wF.readFile ⟨false, [n]⟩ = some y := by
    rw [World.readFile_congr wF _ _ (gens_resolve_bare wF c.working_dir n hcwd habs)]
    exact hy
  have hstage := gensStageLua_rel h c wF [] ⟨false, [n]⟩ n y hlua rfl hread rfl
  rw [copy_skip_of_hash h y (c.working_dir.push n) wF y hy rfl] at hstage
  have hceq : { c with lua := some ⟨false, [n]⟩ } = c := by
    rw [← hlua]
  rw [hceq] at hstage
  exact hstage

theorem gens_prepare_idem (h : HashFn) (w : World) (self c' : GensContext) (w' : World)
    (log : List (Path × List Nat))
    (hcwd : w.cwd = self.working_dir)
    (habs : self.working_dir.absolute = true)
    (hp : self.prepare h w = some (Except.ok (c', w', log))) :
    c'.prepare h w' = some (Except.ok (c', w', [])) := by
  unfold GensContext.prepare at hp
  obtain ⟨st1, hs1, hrest⟩ := pstep_ok_inv _ _ _ hp
  obtain ⟨c1, w1, g1⟩ := st1
  obtain ⟨st2, hs2, hs3⟩ := pstep_ok_inv _ _ _ hrest
  obtain ⟨c2, w2, g2⟩ := st2
  have S1 : (c1.rom = none ∨
        ∃ n, c1.rom = some ⟨false, [n]⟩ ∧ w1.isFile (self.working_dir.push n) = true) ∧
      c1.movie = self.movie ∧ c1.lua = self.lua ∧ c1.working_dir = self.working_dir ∧
      (∀ q, w.isFile q = true → w1.isFile q = true) ∧ w1.cwd = w.cwd := by
    rcases gensStageRom_inv h self w [] c1 w1 g1 hs1 with
      ⟨hrn, hc1, hw1, -⟩ | ⟨r, n, data, hr, hdat, hn, hc1, hw1, -⟩
    · subst hc1; subst hw1
      exact ⟨Or.inl hrn, rfl, rfl, rfl, fun q hq => hq, rfl⟩
    · subst hc1; subst hw1
      refine ⟨Or.inr ⟨n, rfl, ?_⟩, rfl, rfl, rfl,
        fun q hq => copy_if_different_isFile_mono h data _ w q hq,
        copy_if_different_cwd h data _ w⟩
      obtain ⟨y, hy, -⟩ := copy_dest_hash h data (self.working_dir.push n) w
      exact (World.isFile_true_iff _ _).mpr ⟨y, hy⟩
  obtain ⟨RS, hc1m, hc1l, hc1wd, mono1, cwd1⟩ := S1
  have S2 : (c2.movie = none ∨
        (∃ m, c2.movie = some m ∧ m.isAbsolute = true ∧ w2.isFile m = true) ∨
        (∃ n, c2.movie = some ⟨false, [n]⟩ ∧
          w2.isFile (c1.working_dir.push n) = true)) ∧
      c2.rom = c1.rom ∧ c2.lua = c1.lua ∧ c2.working_dir = c1.working_dir ∧
      (∀ q, w1.isFile q = true → w2.isFile q = true) ∧ w2.cwd = w1.cwd := by
    rcases gensStageMovie_inv h c1 w1 g1 c2 w2 g2 hs2 with
      ⟨hmn, hc2, hw2, -⟩ | ⟨m, hm, hf, hab, hc2, hw2, -⟩ |
      ⟨m, n, data, hm, hab, hdat, hn, hc2, hw2, -⟩
    · subst hc2; subst hw2
      exact ⟨Or.inl hmn, rfl, rfl, rfl, fun q hq => hq, rfl⟩
    · subst hc2; subst hw2
      exact ⟨Or.inr (Or.inl ⟨m, hm, hab, hf⟩), rfl, rfl, rfl, fun q hq => hq, rfl⟩
    · subst hc2; subst hw2
      refine ⟨Or.inr (Or.inr ⟨n, rfl, ?_⟩), rfl, rfl, rfl,
        fun q hq => copy_if_different_isFile_mono h data _ w1 q hq,
        copy_if_different_cwd h data _ w1⟩
      obtain ⟨y, hy, -⟩ := copy_dest_hash h data (c1.working_dir.push n) w1
      exact (World.isFile_true_iff _ _).mpr ⟨y, hy⟩
  obtain ⟨MS, hc2r, hc2l, hc2wd, mono2, cwd2⟩ := S2
  have S3 : (c'.lua = none ∨
        (∃ l, c'.lua = some l ∧ l.isAbsolute = true ∧ w'.isFile l = true) ∨
        (∃ n, c'.lua = some ⟨false, [n]⟩ ∧
          w'.isFile (c2.working_dir.push n) = true)) ∧
      c'.rom = c2.rom ∧ c'.movie = c2.movie ∧ c'.working_dir = c2.working_dir ∧
      (∀ q, w2.isFile q = true → w'.isFile q = true) ∧ w'.cwd = w2.cwd := by
    rcases gensStageLua_inv h c2 w2 g2 c' w' log hs3 with
      ⟨hln, hc3, hw3, -⟩ | ⟨l, hl, hf, hab, hc3, hw3, -⟩ |
      ⟨l, n, data, hl, hab, hdat, hn, hc3, hw3, -⟩
    · subst hc3; subst hw3
      exact ⟨Or.inl hln, rfl, rfl, rfl, fun q hq => hq, rfl⟩
    · subst hc3; subst hw3
      exact ⟨Or.inr (Or.inl ⟨l, hl, hab, hf⟩), rfl, rfl, rfl, fun q hq => hq, rfl⟩
    · subst hc3; subst hw3
      refine ⟨Or.inr (Or.inr ⟨n, rfl, ?_⟩), rfl, rfl, rfl,
        fun q hq => copy_if_different_isFile_mono h data _ w2 q hq,
        copy_if_different_cwd h data _ w2⟩
      obtain ⟨y, hy, -⟩ := copy_dest_hash h data (c2.working_dir.push n) w2
      exact (World.isFile_true_iff _ _).mpr ⟨y, hy⟩
  obtain ⟨LS, hc3r, hc3m, hc3wd, mono3, cwd3⟩ := S3
  have hwd3 : c'.working_dir = self.working_dir := hc3wd.trans (hc2wd.trans hc1wd)
  have hcwdF : w'.cwd = c'.working_dir := by
    rw [cwd3, cwd2, cwd1, hcwd, hwd3]
  have habsF : c'.working_dir.absolute = true := by
    rw [hwd3]
    exact habs
  have T1 : gensStageRom h (c', w', []) = some (Except.ok (c', w', [])) := by
    rcases RS with h0 | ⟨n, ha, hb⟩
    · exact gensStageRom_none h c' w' [] ((hc3r.trans hc2r).trans h0)
    · have hfile : w'.isFile (c'.working_dir.push n) = true := by
        rw [hwd3]
        exact mono3 _ (mono2 _ hb)
      obtain ⟨y, hy⟩ := (World.isFile_true_iff _ _).mp hfile
      exact gens_second_rom h c' w' n y ((hc3r.trans hc2r).trans ha) hcwdF habsF hy
  have T2 : gensStageMovie h (c', w', []) = some (Except.ok (c', w', [])) := by
    rcases MS with h0 | ⟨m, hm, hab, hf⟩ | ⟨n, hm, hb⟩
    · exact gensStageMovie_none h c' w' [] (hc3m.trans h0)
    · exact gensStageMovie_abs h c' w' [] m (hc3m.trans hm) (mono3 _ hf) hab
    · have hfile : w'.isFile (c'.working_dir.push n) = true := by
        rw [hwd3, ← hc1wd]
        exact mono3 _ hb
      obtain ⟨y, hy⟩ := (World.isFile_true_iff _ _).mp hfile
      exact gens_second_movie_rel h c' w' n y (hc3m.trans hm) hcwdF habsF hy
  have T3 : gensStageLua h (c', w', []) = some (Except.ok (c', w', [])) := by
    rcases LS with h0 | ⟨l, hl, hab, hf⟩ | ⟨n, hl, hb⟩
    · exact gensStageLua_none h c' w' [] h0
    · exact gensStageLua_abs h c' w' [] l hl hf hab
    · have hfile : w'.isFile (c'.working_dir.push n) = true := by
        rw [hwd3, ← hc1wd, ← hc2wd]
        exact hb
      obtain ⟨y, hy⟩ := (World.isFile_true_iff _ _).mp hfile
      exact gens_second_lua_rel h c' w' n y hl hcwdF habsF hy
  unfold GensContext.prepare
  rw [T1, pstep_ok, T2, pstep_ok, T3]

/-- C8 counterexample: a Gens context given an absolute rom path, prepared in
a process whose current directory is not the working directory.  The first
`prepare` succeeds and rewrites the rom field to the bare file name
`game.bin`; the second `prepare`, with the filesystem unchanged, resolves
that relative name against the process cwd, finds no file and fails with
`MissingRom` — so re-preparation is not idempotent as claimed. -/
theorem c8_counterexample :
    GensContext.prepare (fun l => if l = [] then "e" else "n")
        ⟨[(⟨true, ["d", "game.bin"]⟩, [7])], [], ⟨true, ["h"]⟩⟩
        ⟨GensVersion.Ver11A, false, some ⟨true, ["d", "game.bin"]⟩, none, none,
          ⟨true, ["g"]⟩⟩
      = some (Except.ok
          (⟨GensVersion.Ver11A, false, some ⟨false, ["game.bin"]⟩, none, none,
            ⟨true, ["g"]⟩⟩,
           ⟨[(⟨true, ["g", "game.bin"]⟩, [7]), (⟨true, ["d", "game.bin"]⟩, [7])], [],
             ⟨true, ["h"]⟩⟩,
           [(⟨true, ["g", "game.bin"]⟩, [7])])) ∧
    GensContext.prepare (fun l => if l = [] then "e" else "n")
        ⟨[(⟨true, ["g", "game.bin"]⟩, [7]), (⟨true, ["d", "game.bin"]⟩, [7])], [],
          ⟨true, ["h"]⟩⟩
        ⟨GensVersion.Ver11A, false, some ⟨false, ["game.bin"]⟩, none, none,
          ⟨true, ["g"]⟩⟩
      = some (Except.error (Error.MissingRom ⟨false, ["game.bin"]⟩)) := by
  refine ⟨by decide, by decide⟩

/-- C8 (amended): re-preparation is idempotent for the BizHawk and FCEUX
adapters: a second `prepare` on the context and filesystem produced by a
successful first `prepare` succeeds, returns them unchanged and performs no
write.  For the Gens adapter the same holds provided the rewritten bare
file-name fields re-resolve to the staged files, i.e. the process current
directory is the (absolute) working directory; otherwise the second
`prepare` can fail with a Missing* error. -/
theorem c8_repreparation_idempotent :
    (∀ (h : HashFn) (d p : List Nat) (w : World) (self c' : BizHawkContext) (w' : World)
        (log : List (Path × List Nat)),
      self.prepare h d p w = some (Except.ok (c', w', log)) →
      c'.prepare h d p w' = some (Except.ok (c', w', []))) ∧
    (∀ (h : HashFn) (w : World) (self c' : FceuxContext) (w' : World)
        (log : List (Path × List Nat)),
      self.prepare h w = Except.ok (c', w', log) →
      c'.prepare h w' = Except.ok (c', w', [])) ∧
    (∀ (h : HashFn) (w : World) (self c' : GensContext) (w' : World)
        (log : List (Path × List Nat)),
      w.cwd = self.working_dir → self.working_dir.absolute = true →
      self.prepare h w = some (Except.ok (c', w', log)) →
      c'.prepare h w' = some (Except.ok (c', w', []))) :=
  ⟨fun h d p w self c' w' log hp => (bizhawk_prepare_idem h d p w self c' w' log hp).2,
   fun h w self c' w' log hp => (fceux_prepare_idem h w self c' w' log hp).2,
   fun h w self c' w' log hcwd habs hp => gens_prepare_idem h w self c' w' log hcwd habs hp⟩

theorem c8_repreparation_idempotent_witness :
    BizHawkContext.prepare (fun _ => "zz") [0] [1]
        ⟨[(⟨true, ["b", "start-bizhawk.sh"]⟩, [0]), (⟨true, ["b", "EmuHawk.exe"]⟩, [7])],
          [], ⟨true, []⟩⟩
        ⟨none, none, none, none, ⟨true, ["b"]⟩⟩
      = some (Except.ok (⟨none, none, none, none, ⟨true, ["b"]⟩⟩,
          ⟨[(⟨true, ["b", "start-bizhawk.sh"]⟩, [0]), (⟨true, ["b", "EmuHawk.exe"]⟩, [7])],
            [], ⟨true, []⟩⟩, [])) ∧
    FceuxContext.prepare (fun _ => "zz")
        ⟨[(⟨true, ["f", "fceux"]⟩, [1])], [], ⟨true, []⟩⟩
        ⟨none, none, none, none, ⟨true, ["f"]⟩⟩
      = Except.ok (⟨none, none, none, none, ⟨true, ["f"]⟩⟩,
          ⟨[(⟨true, ["f", "fceux"]⟩, [1])], [], ⟨true, []⟩⟩, []) ∧
    GensContext.prepare (fun _ => "zz")
        ⟨[(⟨true, ["g", "game.bin"]⟩, [7]), (⟨true, ["d", "game.bin"]⟩, [7])], [],
          ⟨true, ["g"]⟩⟩
        ⟨GensVersion.Ver11A, false, some ⟨false, ["game.bin"]⟩, none, none,
          ⟨true, ["g"]⟩⟩
      = some (Except.ok
          (⟨GensVersion.Ver11A, false, some ⟨false, ["game.bin"]⟩, none, none,
            ⟨true, ["g"]⟩⟩,
           ⟨[(⟨true, ["g", "game.bin"]⟩, [7]), (⟨true, ["d", "game.bin"]⟩, [7])], [],
             ⟨true, ["g"]⟩⟩, [])) :=
  ⟨c8_repreparation_idempotent.1 (fun _ => "zz") [0] [1]
      ⟨[(⟨true, ["b", "EmuHawk.exe"]⟩, [7])], [], ⟨true, []⟩⟩
      ⟨none, none, none, none, ⟨true, ["b"]⟩⟩
      ⟨none, none, none, none, ⟨true, ["b"]⟩⟩
      ⟨[(⟨true, ["b", "start-bizhawk.sh"]⟩, [0]), (⟨true, ["b", "EmuHawk.exe"]⟩, [7])],
        [], ⟨true, []⟩⟩
      [(⟨true, ["b", "start-bizhawk.sh"]⟩, [0])] (by decide),
   c8_repreparation_idempotent.2.1 (fun _ => "zz")
      ⟨[(⟨true, ["f", "fceux"]⟩, [1])], [], ⟨true, []⟩⟩
      ⟨none, none, none, none, ⟨true, ["f"]⟩⟩
      ⟨none, none, none, none, ⟨true, ["f"]⟩⟩
      ⟨[(⟨true, ["f", "fceux"]⟩, [1])], [], ⟨true, []⟩⟩ [] (by decide),
   c8_repreparation_idempotent.2.2 (fun _ => "zz")
      ⟨[(⟨true, ["d", "game.bin"]⟩, [7])], [], ⟨true, ["g"]⟩⟩
      ⟨GensVersion.Ver11A, false, some ⟨true, ["d", "game.bin"]⟩, none, none,
        ⟨true, ["g"]⟩⟩
      ⟨GensVersion.Ver11A, false, some ⟨false, ["game.bin"]⟩, none, none,
        ⟨true, ["g"]⟩⟩
      ⟨[(⟨true, ["g", "game.bin"]⟩, [7]), (⟨true, ["d", "game.bin"]⟩, [7])], [],
        ⟨true, ["g"]⟩⟩
      [(⟨true, ["g", "game.bin"]⟩, [7])] (by decide) (by decide) (by decide)⟩

end EmuRunner
